import Mathlib

/-!
# DocChat: the context budgeting engine of `ChatInterface.jsx`

A shallow embedding of the logic of `src/src/components/ChatInterface.jsx`
(`estimateTokens`, `calculateSelectedTokens`, `wouldExceedLimit`,
`toggleFileSelection`, `canSelect`, the selection updates of `deleteFile`, `newChat` and
`loadChat`, `sendMessage`, the auto-save effect, `saveCurrentChat`,
`extractTextFromFile` and `analyzeWithLLM`) and of the functions that
`FileUpload.jsx` and `Dashboard.jsx` share with it, followed by the properties
proved about it.

Modelling conventions.

* A JavaScript string is the list of its UTF-16 code units, so `text.length`
  is `List.length`, `a + b` on strings is `++`, and a template literal is the
  concatenation of its pieces.
* `Math.ceil(text.length / 4)` is computed over the rationals: a string length
  is below `2 ^ 53` and division by four is exact in binary floating point, so
  the double computed by the browser is the rational ceiling.
* A React state variable is a value; a functional update
  `setSelectedFiles(prev => ...)` is the function from the previous value to
  the next one. The helpers that a handler calls (`wouldExceedLimit`,
  `calculateSelectedTokens`) read the `files` and `selectedFiles` of the render
  in which the handler was created, so they take both as arguments.
* `GEMINI_TOKEN_LIMIT` is a constant of the component. The functions that read
  it take the limit as their first argument, and the component is the instance
  at `GEMINI_TOKEN_LIMIT`.
* An `async` handler is the sequence of states it produces, one for each run of
  setter calls made without an intervening `await`. What the handler awaits
  (the answer of the generative-AI client, of the backend) is an argument.
* A chunk of the response stream is its text `chunk.text`.
* A backend table is the list of its rows in insertion order; a backend call is
  its effect on the tables when it succeeds.
-/

namespace DocChat

/-! ## Data model -/

/-- A JavaScript string: the list of its UTF-16 code units. -/
abbrev JSString := List Nat

/-- The code units of a string literal of the source (the literals used here are
ASCII, one code unit per character). -/
def lit (s : String) : JSString := s.toList.map Char.toNat

/-- A row of the `file_uploads` table as the component holds it in `files`
(`handleFileUpload` inserts exactly these columns; `id` is the key given by the
backend). -/
structure FileRecord where
  id : Nat
  file_name : JSString
  file_type : JSString
  file_size : Nat
  extracted_info : JSString
deriving DecidableEq, Repr

/-- The constant `GEMINI_TOKEN_LIMIT = 200000` (line 19). -/
def GEMINI_TOKEN_LIMIT : Int := 200000

/-! ## The budgeting functions (lines 21-42, 192-208) -/

/-- Source `estimateTokens` (lines 22-24): `Math.ceil(text.length / 4)`. -/
def estimateTokens (text : JSString) : Int :=
  Int.ceil ((text.length : ℚ) / 4)

/-- Source `calculateSelectedTokens` (lines 27-32): filter `files` by membership of
the id in `selectedFiles`, then `reduce` with `sum + estimateTokens(...)` from 0. -/
def calculateSelectedTokens (files : List FileRecord) (selectedFiles : List Nat) : Int :=
  let selectedFilesData := files.filter (fun f => selectedFiles.contains f.id)
  selectedFilesData.foldl (fun sum file => sum + estimateTokens file.extracted_info) 0

/-- Source `wouldExceedLimit` (lines 35-42): `files.find` returns the first record
with the id; with no such record the answer is `false`. -/
def wouldExceedLimit (limit : Int) (files : List FileRecord) (selectedFiles : List Nat)
    (fileId : Nat) : Bool :=
  match files.find? (fun f => f.id == fileId) with
  | none => false
  | some file =>
    let currentTokens := calculateSelectedTokens files selectedFiles
    let fileTokens := estimateTokens file.extracted_info
    decide (currentTokens + fileTokens > limit)

/-- The updater that `toggleFileSelection` hands to `setSelectedFiles`
(lines 193-207). `prev` is the state being updated; `wouldExceedLimit` reads the
`files` and `selectedFiles` of the render. The `alert` of the rejecting branch
has no effect on the state. -/
def toggleUpdater (limit : Int) (files : List FileRecord) (selectedFiles : List Nat)
    (fileId : Nat) (prev : List Nat) : List Nat :=
  if prev.contains fileId then
    prev.filter (fun id => id != fileId)
  else if wouldExceedLimit limit files selectedFiles fileId then
    prev
  else
    prev ++ [fileId]

/-- Source `toggleFileSelection` (lines 192-208) run on a rendered state: the
updated state `prev` is the `selectedFiles` of that render. The result is the
next value of `selectedFiles`. -/
def toggleFileSelection (limit : Int) (files : List FileRecord) (selectedFiles : List Nat)
    (fileId : Nat) : List Nat :=
  toggleUpdater limit files selectedFiles fileId selectedFiles

/-- The selection after a sequence of toggles, one render after each. -/
def toggleAll (limit : Int) (files : List FileRecord) (selectedFiles : List Nat)
    (ids : List Nat) : List Nat :=
  ids.foldl (toggleFileSelection limit files) selectedFiles

/-- The flag `canSelect` that the sidebar computes for a record (lines 504-505):
`isSelected || !wouldExceedLimit(file.id)`. -/
def canSelect (limit : Int) (files : List FileRecord) (selectedFiles : List Nat)
    (file : FileRecord) : Bool :=
  let isSelected := selectedFiles.contains file.id
  isSelected || !wouldExceedLimit limit files selectedFiles file.id

/-! ## The other writers of the selection (lines 148-173, 290-294, 427-438) -/

/-- A conversation turn as the component holds it in `messages`. -/
structure Message where
  role : JSString
  content : JSString
deriving DecidableEq, Repr

/-- A row of `chat_messages` as `loadChat` reads it. -/
structure ChatMessageRow where
  chat_id : Nat
  role : JSString
  content : JSString
deriving DecidableEq, Repr

/-- A row of `chat_files` as `loadChat` selects it (`select('file_id')`). -/
structure ChatFileRow where
  file_id : Nat
deriving DecidableEq, Repr

/-- The state variables of the component that the modelled handlers read or write. -/
structure State where
  files : List FileRecord
  selectedFiles : List Nat
  messages : List Message
  currentChatId : Option Nat
deriving DecidableEq, Repr

/-- Source `newChat` (lines 290-294). -/
def newChat (st : State) : State :=
  { st with messages := [], selectedFiles := [], currentChatId := none }

/-- Source `loadChat` (lines 148-173). Each backend answer is `none` when the query
reports an error (the handler throws and the `catch` only logs, so no setter
runs) and `some data` otherwise. -/
def loadChat (chatId : Nat) (messagesResult : Option (List ChatMessageRow))
    (filesResult : Option (List ChatFileRow)) (st : State) : State :=
  match messagesResult with
  | none => st
  | some messagesData =>
    match filesResult with
    | none => st
    | some filesData =>
      { st with
        messages := messagesData.map (fun m => { role := m.role, content := m.content }),
        selectedFiles := filesData.map (fun f => f.file_id),
        currentChatId := some chatId }

/-- Source `deleteFile` (lines 427-438), its effect on the state variables:
nothing when the user does not confirm or the backend call throws, otherwise
`setSelectedFiles(prev => prev.filter(id => id !== fileId))`. The refresh of
`files` that the handler then requests is a later, separate update. -/
def deleteFile (confirmed threw : Bool) (fileId : Nat) (st : State) : State :=
  if !confirmed then st
  else if threw then st
  else { st with selectedFiles := st.selectedFiles.filter (fun id => id != fileId) }

/-- The operations of the component that write `selectedFiles`. -/
inductive SelectionOp where
  | toggleFileSelection (fileId : Nat)
  | deleteFile (confirmed threw : Bool) (fileId : Nat)
  | newChat
  | loadChat (chatId : Nat) (messagesResult : Option (List ChatMessageRow))
      (filesResult : Option (List ChatFileRow))
deriving Repr

/-- One operation run on a state. -/
def SelectionOp.run (limit : Int) (st : State) : SelectionOp → State
  | .toggleFileSelection fileId =>
    { st with selectedFiles := DocChat.toggleFileSelection limit st.files st.selectedFiles fileId }
  | .deleteFile confirmed threw fileId => DocChat.deleteFile confirmed threw fileId st
  | .newChat => DocChat.newChat st
  | .loadChat chatId messagesResult filesResult =>
    DocChat.loadChat chatId messagesResult filesResult st

/-- The capacity invariant: the selected documents cost at most the limit. -/
def withinBudget (limit : Int) (st : State) : Prop :=
  calculateSelectedTokens st.files st.selectedFiles ≤ limit

instance (limit : Int) (st : State) : Decidable (withinBudget limit st) := by
  unfold withinBudget; infer_instance

/-! ## The request of `sendMessage` (lines 210-250) -/

/-- A part of a request content: `{ text }` or `{ inlineData: { mimeType, data } }`.
The `data` of `analyzeWithLLM` is an array element read by index, which is
`undefined` (here `none`) when the index is out of range. -/
inductive Part where
  | text (text : JSString)
  | inlineData (mimeType : JSString) (data : Option JSString)
deriving DecidableEq, Repr

/-- An element of `contents`: `{ role, parts }`. -/
structure Content where
  role : JSString
  parts : List Part
deriving DecidableEq, Repr

/-- The code units that `String.prototype.trim` removes (WhiteSpace and
LineTerminator of ECMAScript). -/
def isTrimmed (c : Nat) : Bool :=
  c == 0x09 || c == 0x0A || c == 0x0B || c == 0x0C || c == 0x0D || c == 0x20 ||
  c == 0xA0 || c == 0x1680 || (0x2000 ≤ c && c ≤ 0x200A) || c == 0x2028 ||
  c == 0x2029 || c == 0x202F || c == 0x205F || c == 0x3000 || c == 0xFEFF

/-- The test `!input.trim()`: the trimmed string is empty exactly when every code
unit is one that `trim` removes. -/
def isBlank (input : JSString) : Bool := input.all isTrimmed

/-- The test `!GEMINI_API_KEY`: the variable is undefined or the empty string. -/
def keyMissing (apiKey : Option JSString) : Bool :=
  match apiKey with
  | none => true
  | some k => k.isEmpty

/-- The `context` built by `sendMessage` (lines 229-238): the `forEach` appends two
template literals per selected record, in the order of `files`. -/
def sendMessageContext (files : List FileRecord) (selectedFiles : List Nat) : JSString :=
  let selectedFilesData := files.filter (fun f => selectedFiles.contains f.id)
  if selectedFilesData.length > 0 then
    selectedFilesData.foldl
      (fun context file =>
        (context ++ (lit "File: " ++ file.file_name ++ lit "\n"))
          ++ (lit "Information: " ++ file.extracted_info ++ lit "\n\n"))
      (lit "Context from uploaded files:\n\n")
  else
    []

/-- The `prompt` of `sendMessage` (line 240). -/
def sendMessagePrompt (files : List FileRecord) (selectedFiles : List Nat)
    (input : JSString) : JSString :=
  sendMessageContext files selectedFiles ++ lit "\nUser question: " ++ input

/-- The `contents` that `sendMessage` passes to `generateContentStream`
(lines 211-250): `none` when no request is issued, because the input is blank
(early return) or the key is missing (the throw of line 222). -/
def sendMessageContents (apiKey : Option JSString) (files : List FileRecord)
    (selectedFiles : List Nat) (input : JSString) : Option (List Content) :=
  if isBlank input then none
  else if keyMissing apiKey then none
  else
    let prompt := sendMessagePrompt files selectedFiles input
    some [{ role := lit "user", parts := [Part.text prompt] }]

/-! ## The send operation (lines 210-273) -/

/-- The state variables that `sendMessage` writes. -/
structure ChatState where
  messages : List Message
  input : JSString
  loading : Bool
deriving DecidableEq, Repr

/-- How the iteration `for await (const chunk of response)` ends: the stream is
exhausted, or the iterator throws an error with the given `message`. -/
inductive StreamEnd where
  | done
  | error (message : JSString)
deriving DecidableEq, Repr

/-- What the generative-AI client does with one request:
`generateContentStream` rejects with an error, or it yields a stream that
delivers the texts `chunk.text` in order and then ends. -/
inductive LlmOutcome where
  | rejected (message : JSString)
  | stream (deltas : List JSString) (ending : StreamEnd)
deriving DecidableEq, Repr

/-- The turn appended by the `catch` block (lines 266-269). -/
def errorTurn (message : JSString) : Message :=
  { role := lit "assistant", content := lit "Error: " ++ message }

/-- The updater of lines 258-262: a copy of `prev` whose last element has its
`content` replaced by `fullText`. On an empty array the assignment to
`newMessages[-1].content` throws a `TypeError`, which is `none` here. -/
def setLastContent (fullText : JSString) (prev : List Message) : Option (List Message) :=
  match prev.getLast? with
  | none => none
  | some last => some (prev.dropLast ++ [{ last with content := fullText }])

/-- The loop of lines 256-263 from a state `st` with the text accumulated so far:
the successive states, one after each chunk. -/
def streamStates (fullText : JSString) (st : ChatState) :
    List JSString → Option (List ChatState)
  | [] => some []
  | delta :: rest =>
    match setLastContent (fullText ++ delta) st.messages with
    | none => none
    | some newMessages =>
      match streamStates (fullText ++ delta) { st with messages := newMessages } rest with
      | none => none
      | some states => some ({ st with messages := newMessages } :: states)

/-- Source `sendMessage` (lines 210-273) as the sequence of states it produces, one
for each run of setter calls made without an intervening `await`:

* blank input: the early return, no state;
* missing key: the throw of line 222 is caught in the same synchronous run as
  lines 213-216, so the user turn, the error turn and both values of `loading`
  are applied together;
* rejected request: the state of lines 213-216, then the `catch` and `finally`;
* stream: the state of lines 213-216, the state with the empty assistant turn
  (line 254), one state per chunk, then the `finally` alone (`done`) or the
  `catch` and `finally` (`error`).

The result is `none` if an updater throws. -/
def sendMessageTrace (apiKey : Option JSString) (outcome : LlmOutcome) (st : ChatState) :
    Option (List ChatState) :=
  if isBlank st.input then some []
  else
    let userMessage : Message := { role := lit "user", content := st.input }
    let sent : ChatState :=
      { messages := st.messages ++ [userMessage], input := [], loading := true }
    if keyMissing apiKey then
      some [{ sent with
        messages := sent.messages ++ [errorTurn (lit "Gemini API key not found")],
        loading := false }]
    else
      match outcome with
      | .rejected message =>
        some [sent,
          { sent with messages := sent.messages ++ [errorTurn message], loading := false }]
      | .stream deltas ending =>
        let assistantMessage : Message := { role := lit "assistant", content := [] }
        let started : ChatState := { sent with messages := sent.messages ++ [assistantMessage] }
        match streamStates [] started deltas with
        | none => none
        | some states =>
          let last := states.getLast?.getD started
          match ending with
          | .done => some ([sent, started] ++ states ++ [{ last with loading := false }])
          | .error message =>
            some ([sent, started] ++ states ++
              [{ last with messages := last.messages ++ [errorTurn message], loading := false }])

/-- The state in which `sendMessage` leaves the component: the last state of the
trace, or the initial state when the trace is empty. -/
def sendMessage (apiKey : Option JSString) (outcome : LlmOutcome) (st : ChatState) :
    Option ChatState :=
  (sendMessageTrace apiKey outcome st).map (fun states => states.getLast?.getD st)

/-! ## Saving a chat (lines 53-58, 88-146) -/

/-- A row of `chats` as `saveCurrentChat` inserts it, with the `id` given by the
backend. -/
structure ChatRow where
  id : Nat
  user_id : JSString
  title : JSString
  updated_at : JSString
deriving DecidableEq, Repr

/-- A row of `chat_files` as `saveCurrentChat` inserts it. -/
structure ChatFileLink where
  chat_id : Nat
  file_id : Nat
deriving DecidableEq, Repr

/-- The tables that `saveCurrentChat` writes, each as the list of its rows in
insertion order. -/
structure Backend where
  chats : List ChatRow
  chat_files : List ChatFileLink
  chat_messages : List ChatMessageRow
deriving DecidableEq, Repr

/-- What one run of `saveCurrentChat` takes from outside the component: the
`userId` prop, the value of `new Date().toISOString()`, and the id that the
backend gives to a chat inserted by this run. -/
structure SaveEnv where
  userId : JSString
  now : JSString
  newChatId : Nat
deriving DecidableEq, Repr

/-- The test `!chatId` of line 96: `null`, or the number zero. -/
def chatIdMissing : Option Nat → Bool
  | none => true
  | some id => id == 0

/-- The `title` of line 97: `messages[0]?.content.substring(0, 50) || 'New Chat'`.
The empty string is falsy, so an empty text gives `New Chat`. -/
def newChatTitle (messages : List Message) : JSString :=
  match messages.head? with
  | none => lit "New Chat"
  | some first =>
    let title := first.content.take 50
    if title.isEmpty then lit "New Chat" else title

/-- The chat id that a run of `saveCurrentChat` works on (the variable `chatId`
after lines 93-126). -/
def savedChatId (env : SaveEnv) (currentChatId : Option Nat) : Nat :=
  if chatIdMissing currentChatId then env.newChatId else currentChatId.getD 0

/-- Source `saveCurrentChat` (lines 88-146) in a run in which every backend call
succeeds: the tables after the run and the value of `currentChatId` after it.
An insert appends rows, `delete().eq('chat_id', chatId)` removes the rows of the
chat, `update(...).eq('id', chatId)` rewrites the timestamp of the chat. -/
def saveCurrentChat (env : SaveEnv) (savingChat : Bool) (messages : List Message)
    (selectedFiles : List Nat) (currentChatId : Option Nat) (db : Backend) :
    Backend × Option Nat :=
  if savingChat || messages.length == 0 then (db, currentChatId)
  else
    let chatId := savedChatId env currentChatId
    let db1 : Backend :=
      if chatIdMissing currentChatId then
        let title := newChatTitle messages
        let withChat : Backend :=
          { db with chats := db.chats ++
              [{ id := chatId, user_id := env.userId, title := title, updated_at := env.now }] }
        if selectedFiles.length > 0 then
          { withChat with chat_files := withChat.chat_files ++
              selectedFiles.map (fun fileId => { chat_id := chatId, file_id := fileId }) }
        else withChat
      else
        let touched : List ChatRow :=
          db.chats.map (fun c => if c.id == chatId then { c with updated_at := env.now } else c)
        { db with chats := touched }
    let db2 : Backend :=
      { db1 with chat_messages := db1.chat_messages.filter (fun r => r.chat_id != chatId) }
    let chatMessages : List ChatMessageRow :=
      messages.map (fun msg => { chat_id := chatId, role := msg.role, content := msg.content })
    ({ db2 with chat_messages := db2.chat_messages ++ chatMessages }, some chatId)

/-- The transcript stored for a chat: the `(role, content)` pairs of its rows of
`chat_messages`, in table order. -/
def storedTranscript (db : Backend) (chatId : Nat) : List Message :=
  (db.chat_messages.filter (fun r => r.chat_id == chatId)).map
    (fun r => { role := r.role, content := r.content })

/-! ## The auto-save effect (lines 53-58) -/

/-- One render committed during a send: the state it shows, and whether a
`setMessages` call was applied since the previous render. Every `setMessages` of
`sendMessage` builds a new array, so the effect with the dependency list
`[messages]` runs after exactly the renders for which this flag is set. -/
structure Commit where
  state : ChatState
  messagesSet : Bool
deriving DecidableEq, Repr

/-- The effect of lines 53-58 after one render: the transcript on which
`saveCurrentChat` is called, or `none` when the effect does not run or its guard
`messages.length > 0 && !loading` fails. -/
def autoSaveEffect (c : Commit) : Option (List Message) :=
  if c.messagesSet then
    if c.state.messages.length > 0 && !c.state.loading then some c.state.messages else none
  else
    none

/-- Source `sendMessage` (lines 210-273) as the renders it causes when every run of
setter calls that is separated from the next by an `await` is rendered on its
own: the states of `sendMessageTrace`, each with the flag of `Commit`. The last
render of a stream that ends without error applies `setLoading(false)` only
(line 271), all others apply a `setMessages`. -/
def sendMessageCommits (apiKey : Option JSString) (outcome : LlmOutcome) (st : ChatState) :
    Option (List Commit) :=
  if isBlank st.input then some []
  else
    let userMessage : Message := { role := lit "user", content := st.input }
    let sent : ChatState :=
      { messages := st.messages ++ [userMessage], input := [], loading := true }
    if keyMissing apiKey then
      some [{ state := { sent with
                messages := sent.messages ++ [errorTurn (lit "Gemini API key not found")],
                loading := false },
              messagesSet := true }]
    else
      match outcome with
      | .rejected message =>
        some [{ state := sent, messagesSet := true },
          { state := { sent with
              messages := sent.messages ++ [errorTurn message], loading := false },
            messagesSet := true }]
      | .stream deltas ending =>
        let assistantMessage : Message := { role := lit "assistant", content := [] }
        let started : ChatState := { sent with messages := sent.messages ++ [assistantMessage] }
        match streamStates [] started deltas with
        | none => none
        | some states =>
          let last := states.getLast?.getD started
          let shown : List Commit :=
            [{ state := sent, messagesSet := true }, { state := started, messagesSet := true }]
              ++ states.map (fun s => { state := s, messagesSet := true })
          match ending with
          | .done =>
            some (shown ++ [{ state := { last with loading := false }, messagesSet := false }])
          | .error message =>
            some (shown ++
              [{ state := { last with
                    messages := last.messages ++ [errorTurn message], loading := false },
                 messagesSet := true }])

/-- The render obtained when React applies the updates of two consecutive
renders in one batch: the later state, with `messages` set if either set it. -/
def Commit.batch (c d : Commit) : Commit :=
  { state := d.state, messagesSet := c.messagesSet || d.messagesSet }

/-! ## File ingestion and summarisation
(`ChatInterface.jsx` lines 296-387, `FileUpload.jsx` lines 20-120, `Dashboard.jsx`
lines 27-30) -/

/-- Source `estimateTokens` of `Dashboard.jsx` (lines 27-30). -/
def Dashboard.estimateTokens (text : JSString) : Int :=
  Int.ceil ((text.length : ℚ) / 4)

/-- A browser `File` as the upload handlers read it: its `name` and `type`, the
`result` that `FileReader.readAsDataURL` delivers for it, and the string that
`file.text()` resolves to. -/
structure UploadedFile where
  name : JSString
  type : JSString
  dataURL : JSString
  text : JSString
deriving DecidableEq, Repr

/-- The object that `extractTextFromFile` returns: `{ type: 'image' | 'pdf', base64,
mimeType, name }` (`isImage` tells which of the two types) or
`{ type: 'document', content, name }`. -/
inductive FileData where
  | binary (isImage : Bool) (base64 mimeType name : JSString)
  | document (content name : JSString)
deriving DecidableEq, Repr

/-- The method `s.startsWith(p)`. -/
def startsWith (s p : JSString) : Bool := s.take p.length == p

/-- Source `convertToBase64` (lines 309-322 of `ChatInterface.jsx`). -/
def convertToBase64 (file : UploadedFile) : FileData :=
  .binary (startsWith file.type (lit "image/")) file.dataURL file.type file.name

/-- Source `extractTextFromFile` (lines 296-307 of `ChatInterface.jsx`). -/
def extractTextFromFile (file : UploadedFile) : FileData :=
  if startsWith file.type (lit "image/") || file.type == lit "application/pdf" then
    convertToBase64 file
  else
    .document file.text file.name

/-- The method `s.split(sep)` for a separator of one code unit: the segments
between the occurrences of the separator, at least one segment. -/
def jsSplit (sep : Nat) : JSString → List JSString
  | [] => [[]]
  | c :: cs =>
    if c == sep then [] :: jsSplit sep cs
    else
      match jsSplit sep cs with
      | [] => [[c]]
      | seg :: segs => (c :: seg) :: segs

/-- The code unit of the comma. -/
def comma : Nat := 44

/-- The prompt sent with an image (line 339). -/
def imagePrompt : JSString :=
  lit "Analyze this image and extract all relevant information including: objects, text, people, locations, dates, and any other important details. Provide a comprehensive structured summary."

/-- The prompt sent with a PDF (line 340). -/
def pdfPrompt : JSString :=
  lit "Analyze this PDF document thoroughly and extract ALL information including: main topics, key points, important dates, names, locations, data, tables, and any other relevant details. Provide a comprehensive structured summary of the ENTIRE document."

/-- The instruction that precedes the preview of a text document (line 369). -/
def summaryInstruction : JSString :=
  lit "Provide a brief summary (2-3 sentences) of this document:\n\n"

/-- The `contents` that `analyzeWithLLM` passes to `generateContentStream`
(lines 334-357 and 366-377). -/
def analyzeContents (fileData : FileData) : List Content :=
  match fileData with
  | .binary isImage base64 mimeType _ =>
    let promptText := if isImage then imagePrompt else pdfPrompt
    let base64Data := (jsSplit comma base64)[1]?
    [{ role := lit "user", parts := [Part.text promptText, Part.inlineData mimeType base64Data] }]
  | .document content _ =>
    let contentPreview := content.take 10000
    let prompt := summaryInstruction ++ contentPreview
    [{ role := lit "user", parts := [Part.text prompt] }]

/-- The request of `analyzeWithLLM`: `none` when the key is missing (the throw of
line 328 comes before any request), the `contents` otherwise. -/
def analyzeRequest (apiKey : Option JSString) (fileData : FileData) : Option (List Content) :=
  if keyMissing apiKey then none else some (analyzeContents fileData)

/-- The function `analyzeWithLLM` of both components, which differ only in the
message of the error thrown for a missing key: the string returned, or the
message of the error thrown. -/
def analyzeWithLLMWith (keyError : JSString) (apiKey : Option JSString) (fileData : FileData)
    (outcome : LlmOutcome) : Except JSString JSString :=
  if keyMissing apiKey then .error keyError
  else
    match outcome with
    | .rejected message => .error message
    | .stream deltas ending =>
      match ending with
      | .error message => .error message
      | .done =>
        let fullText := deltas.foldl (fun text chunk => text ++ chunk) []
        match fileData with
        | .binary _ _ _ _ => .ok fullText
        | .document content _ =>
          .ok (lit "SUMMARY:\n" ++ fullText ++ lit "\n\n---\n\nFULL CONTENT:\n" ++ content)

/-- Source `analyzeWithLLM` of `ChatInterface.jsx` (lines 324-387). -/
def analyzeWithLLM (apiKey : Option JSString) (fileData : FileData) (outcome : LlmOutcome) :
    Except JSString JSString :=
  analyzeWithLLMWith (lit "Gemini API key not found") apiKey fileData outcome

/-- Source `analyzeWithLLM` of `FileUpload.jsx` (lines 48-120). -/
def FileUpload.analyzeWithLLM (apiKey : Option JSString) (fileData : FileData)
    (outcome : LlmOutcome) : Except JSString JSString :=
  analyzeWithLLMWith
    (lit "Gemini API key not found. Please add VITE_GEMINI_API_KEY to your .env file")
    apiKey fileData outcome

/-! ## Definitions used to state the properties -/

/-- A text of `n` code units, all the letter `a`. -/
def textOfLength (n : Nat) : JSString := List.replicate n 97

/-- A record with the given id and a text of the given length; the other columns
are empty. -/
def fileOfLength (id n : Nat) : FileRecord :=
  { id := id, file_name := [], file_type := [], file_size := 0,
    extracted_info := textOfLength n }

/-- The ids of the document list are pairwise distinct. -/
def distinctIds (files : List FileRecord) : Prop :=
  (files.map (fun f => f.id)).Nodup

instance (files : List FileRecord) : Decidable (distinctIds files) := by
  unfold distinctIds; infer_instance

/-- The cost of the record that `files.find` returns for an id, and 0 when there
is none. -/
def costOfId (files : List FileRecord) (c : Nat) : Int :=
  match files.find? (fun f => f.id == c) with
  | none => 0
  | some file => estimateTokens file.extracted_info

/-- The state while the reply streams in: the prior transcript, the turn of the
user and one assistant turn with the text received so far. -/
def streamingState (st : ChatState) (text : JSString) : ChatState :=
  { messages := st.messages ++ [{ role := lit "user", content := st.input },
      { role := lit "assistant", content := text }],
    input := [], loading := true }

/-- The state after lines 213-216: the turn of the user appended, the input
cleared, `loading` set. -/
def sentState (st : ChatState) : ChatState :=
  { messages := st.messages ++ [{ role := lit "user", content := st.input }],
    input := [], loading := true }

/-- The state in which a send that reached the stream ends, given the whole text
received. -/
def finishedState (st : ChatState) (text : JSString) : StreamEnd → ChatState
  | .done => { streamingState st text with loading := false }
  | .error message =>
    { streamingState st text with
      messages := (streamingState st text).messages ++ [errorTurn message],
      loading := false }

/-- One step of a transcript during a send that started from the transcript
`prior`: turns are appended (or nothing changes), or the last turn, an assistant
turn that is not one of `prior`, has its text replaced. -/
def transcriptStep (prior : List Message) (s t : ChatState) : Prop :=
  s.messages <+: t.messages
    ∨ ∃ base old new, prior.length < base.length
        ∧ s.messages = base ++ [{ role := lit "assistant", content := old }]
        ∧ t.messages = base ++ [{ role := lit "assistant", content := new }]

/-- The block that the prompt holds for one document, following the wording of the
specification: `File: <file_name>`, a newline, `Information: <extracted_info>`
and two newlines. -/
def specEntry (f : FileRecord) : JSString :=
  lit "File: " ++ f.file_name ++ lit "\nInformation: " ++ f.extracted_info ++ lit "\n\n"

/-- The context as the specification words it: empty when no listed document is
selected, otherwise the header followed by the block of each selected document
in document-list order. -/
def specContext (files : List FileRecord) (S : List Nat) : JSString :=
  if (∀ f ∈ files, f.id ∉ S) then []
  else lit "Context from uploaded files:\n\n"
    ++ ((files.filter (fun f => decide (f.id ∈ S))).map specEntry).flatten

/-! ## Basic facts -/

/-- Closed form of the rational ceiling of a quarter. -/
theorem ceil_quarter (n : Nat) : Int.ceil ((n : ℚ) / 4) = (((n + 3) / 4 : Nat) : Int) := by
  rw [Int.ceil_eq_iff]
  have h1 : 4 * ((n + 3) / 4) < n + 4 := by omega
  have h2 : n ≤ 4 * ((n + 3) / 4) := by omega
  generalize (n + 3) / 4 = q at h1 h2
  have h1q : (4 * (q : ℚ)) < (n : ℚ) + 4 := by exact_mod_cast h1
  have h2q : (n : ℚ) ≤ 4 * (q : ℚ) := by exact_mod_cast h2
  constructor
  · push_cast; linarith
  · push_cast; linarith

/-- The token estimate as a natural-number quotient, used to evaluate it. -/
theorem estimateTokens_eq (text : JSString) :
    estimateTokens text = (((text.length + 3) / 4 : Nat) : Int) :=
  ceil_quarter _

theorem estimateTokens_nonneg (text : JSString) : 0 ≤ estimateTokens text := by
  rw [estimateTokens_eq]; exact Int.ofNat_nonneg _

/-- A text of `n` equal code units costs `(n + 3) / 4`. -/
theorem estimateTokens_replicate (n c : Nat) :
    estimateTokens (List.replicate n c) = (((n + 3) / 4 : Nat) : Int) := by
  rw [estimateTokens_eq, List.length_replicate]

/-- The `reduce` of the source is the sum of the mapped list, shifted by the
initial value. -/
theorem foldl_add_eq_sum (g : FileRecord → Int) (l : List FileRecord) (a : Int) :
    l.foldl (fun sum file => sum + g file) a = a + (l.map g).sum := by
  induction l generalizing a with
  | nil => simp
  | cons x xs ih => simp [ih, add_assoc]

/-- The selected total as a sum over the filtered list. -/
theorem calculateSelectedTokens_eq_sum (files : List FileRecord) (S : List Nat) :
    calculateSelectedTokens files S
      = ((files.filter (fun f => S.contains f.id)).map
          (fun f => estimateTokens f.extracted_info)).sum := by
  unfold calculateSelectedTokens
  simp [foldl_add_eq_sum]

/-- Unfolding of the selected total along the document list. -/
theorem calculateSelectedTokens_cons (f : FileRecord) (files : List FileRecord) (S : List Nat) :
    calculateSelectedTokens (f :: files) S
      = (if f.id ∈ S then estimateTokens f.extracted_info else 0)
        + calculateSelectedTokens files S := by
  simp only [calculateSelectedTokens_eq_sum, List.filter_cons]
  by_cases h : f.id ∈ S
  · simp [h]
  · simp [h]

theorem calculateSelectedTokens_nil (S : List Nat) : calculateSelectedTokens [] S = 0 := by
  simp [calculateSelectedTokens]

theorem calculateSelectedTokens_nonneg (files : List FileRecord) (S : List Nat) :
    0 ≤ calculateSelectedTokens files S := by
  induction files with
  | nil => simp [calculateSelectedTokens_nil]
  | cons f fs ih =>
    rw [calculateSelectedTokens_cons]
    have := estimateTokens_nonneg f.extracted_info
    split_ifs <;> omega

/-- The selected total as a sum over all listed records, each contributing its
cost when its id is selected and nothing otherwise. -/
theorem calculateSelectedTokens_eq_sum_ite (files : List FileRecord) (S : List Nat) :
    calculateSelectedTokens files S
      = (files.map (fun f => if f.id ∈ S then estimateTokens f.extracted_info else 0)).sum := by
  induction files with
  | nil => simp [calculateSelectedTokens_nil]
  | cons f fs ih => rw [calculateSelectedTokens_cons, ih, List.map_cons, List.sum_cons]

/-! ## Facts about `find` and the selected total -/

theorem find_eq_none_of_not_mem (files : List FileRecord) (c : Nat)
    (h : c ∉ files.map (fun f => f.id)) :
    files.find? (fun f => f.id == c) = none := by
  rw [List.find?_eq_none]
  intro x hx hxc
  apply h
  simp only [beq_iff_eq] at hxc
  exact List.mem_map.mpr ⟨x, hx, hxc⟩

/-- With pairwise distinct ids, `find` on the id of a listed record returns that
record. -/
theorem find_of_mem_distinct (files : List FileRecord) (d : FileRecord)
    (hd : distinctIds files) (hmem : d ∈ files) :
    files.find? (fun f => f.id == d.id) = some d := by
  induction files with
  | nil => cases hmem
  | cons f fs ih =>
    unfold distinctIds at hd
    rw [List.map_cons, List.nodup_cons] at hd
    by_cases hfd : f = d
    · subst hfd; simp [List.find?_cons]
    · have hin : d ∈ fs := by
        rcases List.mem_cons.mp hmem with h | h
        · exact absurd h.symm hfd
        · exact h
      have hne : f.id ≠ d.id := by
        intro he
        exact hd.1 (List.mem_map.mpr ⟨d, hin, he.symm⟩)
      have hb : (f.id == d.id) = false := by simpa using hne
      rw [List.find?_cons, hb]
      exact ih hd.2 hin

/-- Removing an id from the selection never raises the selected total. -/
theorem cost_filter_le (files : List FileRecord) (S : List Nat) (c : Nat) :
    calculateSelectedTokens files (S.filter (fun id => id != c))
      ≤ calculateSelectedTokens files S := by
  induction files with
  | nil => simp [calculateSelectedTokens_nil]
  | cons f fs ih =>
    rw [calculateSelectedTokens_cons, calculateSelectedTokens_cons]
    have hn := estimateTokens_nonneg f.extracted_info
    by_cases h1 : f.id ∈ S.filter (fun id => id != c)
    · have h2 : f.id ∈ S := (List.mem_filter.mp h1).1
      rw [if_pos h1, if_pos h2]; omega
    · rw [if_neg h1]; split_ifs <;> omega

/-- After removing a selected id, the record that `find` returns for it fits back
under the former total. -/
theorem cost_filter_add_le (files : List FileRecord) (S : List Nat) (c : Nat)
    (hc : c ∈ S) :
    calculateSelectedTokens files (S.filter (fun id => id != c)) + costOfId files c
      ≤ calculateSelectedTokens files S := by
  induction files with
  | nil => simp [calculateSelectedTokens_nil, costOfId]
  | cons f fs ih =>
    rw [calculateSelectedTokens_cons, calculateSelectedTokens_cons]
    have hn := estimateTokens_nonneg f.extracted_info
    by_cases hfc : f.id = c
    · have h1 : f.id ∉ S.filter (fun id => id != c) := by
        intro h; have := (List.mem_filter.mp h).2; simp [hfc] at this
      have h2 : f.id ∈ S := hfc ▸ hc
      have h3 : costOfId (f :: fs) c = estimateTokens f.extracted_info := by
        simp [costOfId, List.find?_cons, hfc]
      have h4 := cost_filter_le fs S c
      rw [if_neg h1, if_pos h2, h3]; omega
    · have h3 : costOfId (f :: fs) c = costOfId fs c := by
        simp [costOfId, List.find?_cons, hfc]
      have h1 : f.id ∈ S.filter (fun id => id != c) ↔ f.id ∈ S := by
        simp [List.mem_filter, hfc]
      rw [h3]
      by_cases h2 : f.id ∈ S
      · rw [if_pos (h1.mpr h2), if_pos h2]; omega
      · rw [if_neg (fun h => h2 (h1.mp h)), if_neg h2]; omega

/-- With pairwise distinct ids, adding an unselected id raises the selected total
by the cost of the record that `find` returns for it. -/
theorem cost_append_new (files : List FileRecord) (S : List Nat) (c : Nat)
    (hd : distinctIds files) (hc : c ∉ S) :
    calculateSelectedTokens files (S ++ [c])
      = calculateSelectedTokens files S + costOfId files c := by
  induction files with
  | nil => simp [calculateSelectedTokens_nil, costOfId]
  | cons f fs ih =>
    unfold distinctIds at hd
    rw [List.map_cons, List.nodup_cons] at hd
    rw [calculateSelectedTokens_cons, calculateSelectedTokens_cons, ih hd.2]
    by_cases hfc : f.id = c
    · have h1 : f.id ∈ S ++ [c] := by simp [hfc]
      have h2 : f.id ∉ S := hfc ▸ hc
      have h3 : costOfId (f :: fs) c = estimateTokens f.extracted_info := by
        simp [costOfId, List.find?_cons, hfc]
      have h4 : costOfId fs c = 0 := by
        have := find_eq_none_of_not_mem fs c (hfc ▸ hd.1)
        simp [costOfId, this]
      rw [if_pos h1, if_neg h2, h3, h4]; omega
    · have h3 : costOfId (f :: fs) c = costOfId fs c := by
        simp [costOfId, List.find?_cons, hfc]
      have h1 : f.id ∈ S ++ [c] ↔ f.id ∈ S := by simp [hfc]
      rw [h3]
      by_cases h2 : f.id ∈ S
      · rw [if_pos (h1.mpr h2), if_pos h2]; omega
      · rw [if_neg (fun h => h2 (h1.mp h)), if_neg h2]; omega

/-- The cost attached to an id is the cost of the record that `find` returns. -/
theorem costOfId_of_find (files : List FileRecord) (c : Nat) (file : FileRecord)
    (hf : files.find? (fun f => f.id == c) = some file) :
    costOfId files c = estimateTokens file.extracted_info := by
  simp [costOfId, hf]

/-! ## Facts about the toggle -/

/-- The limit test in terms of `costOfId`. -/
theorem wouldExceedLimit_eq (limit : Int) (files : List FileRecord) (S : List Nat) (c : Nat) :
    wouldExceedLimit limit files S c
      = (match files.find? (fun f => f.id == c) with
          | none => false
          | some _ => decide (calculateSelectedTokens files S + costOfId files c > limit)) := by
  unfold wouldExceedLimit costOfId
  cases files.find? (fun f => f.id == c) <;> rfl

theorem toggle_of_mem (limit : Int) (files : List FileRecord) (S : List Nat) (c : Nat)
    (hc : c ∈ S) :
    toggleFileSelection limit files S c = S.filter (fun id => id != c) := by
  simp [toggleFileSelection, toggleUpdater, hc]

theorem toggle_of_not_mem (limit : Int) (files : List FileRecord) (S : List Nat) (c : Nat)
    (hc : c ∉ S) :
    toggleFileSelection limit files S c
      = if wouldExceedLimit limit files S c then S else S ++ [c] := by
  simp [toggleFileSelection, toggleUpdater, hc]

/-- A toggle of an id that `find` does not reject on cost keeps the total within
the limit, provided the ids are pairwise distinct. -/
theorem toggle_preserves_budget (limit : Int) (files : List FileRecord) (S : List Nat)
    (c : Nat) (hd : distinctIds files)
    (h : calculateSelectedTokens files S ≤ limit) :
    calculateSelectedTokens files (toggleFileSelection limit files S c) ≤ limit := by
  by_cases hc : c ∈ S
  · rw [toggle_of_mem limit files S c hc]
    exact le_trans (cost_filter_le files S c) h
  · rw [toggle_of_not_mem limit files S c hc]
    by_cases hw : wouldExceedLimit limit files S c = true
    · rw [if_pos hw]; exact h
    · rw [if_neg hw, cost_append_new files S c hd hc]
      rw [wouldExceedLimit_eq] at hw
      cases hf : files.find? (fun f => f.id == c) with
      | none =>
        have : costOfId files c = 0 := by simp [costOfId, hf]
        omega
      | some file =>
        rw [hf] at hw
        simp only [decide_eq_true_eq, not_lt, gt_iff_lt] at hw
        exact hw

theorem toggleAll_preserves_budget (limit : Int) (files : List FileRecord)
    (hd : distinctIds files) (ids : List Nat) (S : List Nat)
    (h : calculateSelectedTokens files S ≤ limit) :
    calculateSelectedTokens files (toggleAll limit files S ids) ≤ limit := by
  induction ids generalizing S with
  | nil => exact h
  | cons c cs ih =>
    simp only [toggleAll, List.foldl_cons]
    exact ih _ (toggle_preserves_budget limit files S c hd h)

/-- The members of a toggled selection are members of the selection or the
toggled id. -/
theorem mem_toggle (limit : Int) (files : List FileRecord) (S : List Nat) (c x : Nat)
    (hx : x ∈ toggleFileSelection limit files S c) : x ∈ S ∨ x = c := by
  by_cases hc : c ∈ S
  · rw [toggle_of_mem limit files S c hc] at hx
    exact Or.inl (List.mem_filter.mp hx).1
  · rw [toggle_of_not_mem limit files S c hc] at hx
    split_ifs at hx
    · exact Or.inl hx
    · rcases List.mem_append.mp hx with h | h
      · exact Or.inl h
      · exact Or.inr (by simpa using h)

/-- A toggle of a selected id never returns the selection itself. -/
theorem toggle_ne_of_mem (limit : Int) (files : List FileRecord) (S : List Nat) (c : Nat)
    (hc : c ∈ S) : toggleFileSelection limit files S c ≠ S := by
  rw [toggle_of_mem limit files S c hc]
  intro h
  rw [List.filter_eq_self] at h
  simpa using h c hc

/-- Appending an id changes the selection. -/
theorem append_singleton_ne (S : List Nat) (c : Nat) : S ++ [c] ≠ S := by
  intro h
  have := congrArg List.length h
  simp at this

/-! ## Evaluation of the example records -/

theorem estimateTokens_textOfLength (n : Nat) :
    estimateTokens (textOfLength n) = (((n + 3) / 4 : Nat) : Int) := by
  rw [textOfLength, estimateTokens_replicate]

theorem fileOfLength_cost (id n : Nat) :
    estimateTokens (fileOfLength id n).extracted_info = (((n + 3) / 4 : Nat) : Int) :=
  estimateTokens_textOfLength n

theorem fileOfLength_id (id n : Nat) : (fileOfLength id n).id = id := rfl

/-! ## Facts about the prompt -/

/-- The `forEach` of `sendMessage` appends the blocks of the records in order. -/
theorem foldl_context (l : List FileRecord) (acc : JSString) :
    l.foldl
        (fun context file =>
          (context ++ (lit "File: " ++ file.file_name ++ lit "\n"))
            ++ (lit "Information: " ++ file.extracted_info ++ lit "\n\n"))
        acc
      = acc ++ (l.map specEntry).flatten := by
  induction l generalizing acc with
  | nil => simp
  | cons f fs ih =>
    rw [List.foldl_cons, ih, List.map_cons, List.flatten_cons]
    have hl : lit "\nInformation: " = lit "\n" ++ lit "Information: " := by decide
    simp only [specEntry, hl, List.append_assoc]

theorem filter_contains_eq (files : List FileRecord) (S : List Nat) :
    files.filter (fun f => S.contains f.id) = files.filter (fun f => decide (f.id ∈ S)) := by
  apply List.filter_congr
  intro x _
  simp

/-- The context of the source is the context of the specification. -/
theorem sendMessageContext_eq (files : List FileRecord) (S : List Nat) :
    sendMessageContext files S = specContext files S := by
  unfold sendMessageContext specContext
  simp only [filter_contains_eq, foldl_context]
  by_cases h : ∀ f ∈ files, f.id ∉ S
  · have he : files.filter (fun f => decide (f.id ∈ S)) = [] := by
      rw [List.filter_eq_nil_iff]
      intro a ha
      simpa using h a ha
    rw [if_pos h, he]
    simp
  · have hne : files.filter (fun f => decide (f.id ∈ S)) ≠ [] := by
      intro he
      rw [List.filter_eq_nil_iff] at he
      apply h
      intro f hf
      simpa using he f hf
    rw [if_neg h, if_pos (by simpa using List.length_pos.mpr hne)]

/-! ## Facts about the send operation -/

theorem setLastContent_append (fullText : JSString) (base : List Message) (m : Message) :
    setLastContent fullText (base ++ [m])
      = some (base ++ [{ m with content := fullText }]) := by
  simp [setLastContent]

theorem setLastContent_streaming (st : ChatState) (text fullText : JSString) :
    setLastContent fullText (streamingState st text).messages
      = some (streamingState st fullText).messages := by
  have h : (streamingState st text).messages
      = (st.messages ++ [{ role := lit "user", content := st.input }])
        ++ [{ role := lit "assistant", content := text }] := by
    simp [streamingState]
  rw [h, setLastContent_append]
  simp [streamingState]

theorem streamStates_streaming (st : ChatState) (deltas : List JSString) (fullText : JSString) :
    streamStates fullText (streamingState st fullText) deltas
      = some ((List.range deltas.length).map
          (fun k => streamingState st (fullText ++ (deltas.take (k + 1)).flatten))) := by
  induction deltas generalizing fullText with
  | nil => simp [streamStates]
  | cons d ds ih =>
    have hs : ({ streamingState st fullText with
          messages := (streamingState st (fullText ++ d)).messages } : ChatState)
        = streamingState st (fullText ++ d) := by
      simp [streamingState]
    simp only [streamStates, setLastContent_streaming, hs, ih]
    simp [List.range_succ_eq_map, List.map_map, Function.comp_def, List.append_assoc]

theorem getLast_range_map (f : Nat → ChatState) (n : Nat) (d : ChatState) :
    (((List.range n).map f).getLast?).getD d = if n = 0 then d else f (n - 1) := by
  cases n with
  | zero => simp
  | succ m => simp [List.range_succ]

theorem sendMessageTrace_stream (apiKey : Option JSString) (st : ChatState)
    (deltas : List JSString) (ending : StreamEnd)
    (hinput : isBlank st.input = false) (hkey : keyMissing apiKey = false) :
    sendMessageTrace apiKey (.stream deltas ending) st
      = some ([sentState st]
          ++ (List.range (deltas.length + 1)).map
              (fun k => streamingState st (deltas.take k).flatten)
          ++ [finishedState st deltas.flatten ending]) := by
  have hstart : (⟨(st.messages ++ [⟨lit "user", st.input⟩]) ++ [⟨lit "assistant", []⟩],
      [], true⟩ : ChatState) = streamingState st [] := by
    simp [streamingState]
  have hlast : (((List.range deltas.length).map
        (fun k => streamingState st ([] ++ (deltas.take (k + 1)).flatten))).getLast?).getD
        (streamingState st []) = streamingState st deltas.flatten := by
    rw [getLast_range_map]
    cases deltas with
    | nil => simp
    | cons d ds => simp
  simp only [sendMessageTrace, hinput, hkey, Bool.false_eq_true, if_false, hstart,
    streamStates_streaming, hlast]
  have hr : (List.range (deltas.length + 1)).map
        (fun k => streamingState st (deltas.take k).flatten)
      = streamingState st [] :: (List.range deltas.length).map
          (fun k => streamingState st ([] ++ (deltas.take (k + 1)).flatten)) := by
    simp [List.range_succ_eq_map, List.map_map, Function.comp_def]
  rw [hr]
  cases ending <;> simp [finishedState, sentState]

theorem sendMessageTrace_key_missing (apiKey : Option JSString) (outcome : LlmOutcome)
    (st : ChatState) (hinput : isBlank st.input = false) (hkey : keyMissing apiKey = true) :
    sendMessageTrace apiKey outcome st
      = some [{ messages := st.messages ++ [{ role := lit "user", content := st.input },
                  errorTurn (lit "Gemini API key not found")],
                input := [], loading := false }] := by
  simp [sendMessageTrace, hinput, hkey]

theorem sendMessageTrace_rejected (apiKey : Option JSString) (message : JSString)
    (st : ChatState) (hinput : isBlank st.input = false) (hkey : keyMissing apiKey = false) :
    sendMessageTrace apiKey (.rejected message) st
      = some [sentState st,
          { messages := st.messages ++ [{ role := lit "user", content := st.input },
              errorTurn message],
            input := [], loading := false }] := by
  simp [sendMessageTrace, hinput, hkey, sentState]

theorem sendMessage_stream (apiKey : Option JSString) (st : ChatState)
    (deltas : List JSString) (ending : StreamEnd)
    (hinput : isBlank st.input = false) (hkey : keyMissing apiKey = false) :
    sendMessage apiKey (.stream deltas ending) st
      = some (finishedState st deltas.flatten ending) := by
  rw [sendMessage, sendMessageTrace_stream apiKey st deltas ending hinput hkey,
    Option.map_some', List.getLast?_concat]
  rfl

theorem chain_map_range (R : ChatState → ChatState → Prop) (f : Nat → ChatState)
    (fin : ChatState) (n : Nat) (hstep : ∀ k, R (f k) (f (k + 1))) (hend : R (f n) fin) :
    List.Chain R (f 0) ((List.range n).map (fun k => f (k + 1)) ++ [fin]) := by
  induction n generalizing f with
  | zero => simpa using hend
  | succ m ih =>
    rw [List.range_succ_eq_map, List.map_cons, List.cons_append, List.chain_cons]
    refine ⟨hstep 0, ?_⟩
    have h := ih (fun k => f (k + 1)) (fun k => hstep (k + 1)) hend
    simpa [List.map_map, Function.comp_def] using h

theorem streamingState_messages (st : ChatState) (text : JSString) :
    (streamingState st text).messages
      = (st.messages ++ [{ role := lit "user", content := st.input }])
        ++ [{ role := lit "assistant", content := text }] := by
  simp [streamingState]

theorem sendMessage_key_missing (apiKey : Option JSString) (outcome : LlmOutcome)
    (st : ChatState) (hinput : isBlank st.input = false) (hkey : keyMissing apiKey = true) :
    sendMessage apiKey outcome st
      = some { messages := st.messages ++ [{ role := lit "user", content := st.input },
                  errorTurn (lit "Gemini API key not found")],
               input := [], loading := false } := by
  rw [sendMessage, sendMessageTrace_key_missing apiKey outcome st hinput hkey]; rfl

theorem sendMessage_rejected (apiKey : Option JSString) (message : JSString)
    (st : ChatState) (hinput : isBlank st.input = false) (hkey : keyMissing apiKey = false) :
    sendMessage apiKey (.rejected message) st
      = some { messages := st.messages ++ [{ role := lit "user", content := st.input },
                  errorTurn message],
               input := [], loading := false } := by
  rw [sendMessage, sendMessageTrace_rejected apiKey message st hinput hkey]; rfl

/-! ## Facts about saving and the auto-save effect -/

theorem saveCurrentChat_messages (env : SaveEnv) (messages : List Message)
    (selectedFiles : List Nat) (currentChatId : Option Nat) (db : Backend)
    (hne : messages ≠ []) :
    (saveCurrentChat env false messages selectedFiles currentChatId db).1.chat_messages
      = db.chat_messages.filter (fun r => r.chat_id != savedChatId env currentChatId)
        ++ messages.map (fun msg =>
            { chat_id := savedChatId env currentChatId, role := msg.role,
              content := msg.content }) := by
  have hlen : (messages.length == 0) = false := by
    cases messages with
    | nil => exact absurd rfl hne
    | cons m ms => rfl
  unfold saveCurrentChat
  simp only [hlen, Bool.or_false, Bool.false_eq_true, if_false]
  split_ifs <;> rfl

theorem storedTranscript_after_save (env : SaveEnv) (messages : List Message)
    (selectedFiles : List Nat) (currentChatId : Option Nat) (db : Backend)
    (hne : messages ≠ []) (c : Nat) :
    storedTranscript (saveCurrentChat env false messages selectedFiles currentChatId db).1 c
      = if c = savedChatId env currentChatId then messages else storedTranscript db c := by
  unfold storedTranscript
  rw [saveCurrentChat_messages env messages selectedFiles currentChatId db hne,
    List.filter_append, List.filter_filter, List.map_append]
  by_cases hc : c = savedChatId env currentChatId
  · subst hc
    rw [if_pos rfl]
    have h1 : db.chat_messages.filter (fun r =>
        (r.chat_id == savedChatId env currentChatId
          && r.chat_id != savedChatId env currentChatId)) = [] := by
      rw [List.filter_eq_nil_iff]
      intro r _
      simp
    rw [h1]
    simp [List.filter_map, Function.comp_def, List.map_map]
  · rw [if_neg hc]
    have h1 : db.chat_messages.filter (fun r =>
        (r.chat_id == c && r.chat_id != savedChatId env currentChatId))
        = db.chat_messages.filter (fun r => r.chat_id == c) := by
      apply List.filter_congr
      intro r _
      by_cases hr : r.chat_id = c
      · subst hr; simp [hc]
      · simp [hr]
    have h2 : (messages.map (fun msg : Message =>
          ({ chat_id := savedChatId env currentChatId, role := msg.role,
             content := msg.content } : ChatMessageRow))).filter
          (fun r => r.chat_id == c) = [] := by
      rw [List.filter_eq_nil_iff]
      intro r hr
      rw [List.mem_map] at hr
      obtain ⟨m, _, rfl⟩ := hr
      simpa using fun h => hc h.symm
    rw [h1, h2]
    simp

theorem saveCurrentChat_chatId (env : SaveEnv) (messages : List Message)
    (selectedFiles : List Nat) (currentChatId : Option Nat) (db : Backend)
    (hne : messages ≠ []) :
    (saveCurrentChat env false messages selectedFiles currentChatId db).2
      = some (savedChatId env currentChatId) := by
  have hlen : (messages.length == 0) = false := by
    cases messages with
    | nil => exact absurd rfl hne
    | cons m ms => rfl
  unfold saveCurrentChat
  simp only [hlen, Bool.or_false, Bool.false_eq_true, if_false]


theorem sendMessageCommits_states (apiKey : Option JSString) (outcome : LlmOutcome)
    (st : ChatState) :
    (sendMessageCommits apiKey outcome st).map (fun cs => cs.map (fun c => c.state))
      = sendMessageTrace apiKey outcome st := by
  unfold sendMessageCommits sendMessageTrace
  by_cases hb : isBlank st.input = true
  · simp [hb]
  · by_cases hk : keyMissing apiKey = true
    · simp [hb, hk]
    · cases outcome with
      | rejected message => simp [hb, hk]
      | stream deltas ending =>
        simp only [hb, hk, Bool.false_eq_true, if_false]
        cases streamStates [] _ deltas with
        | none => rfl
        | some states =>
          cases ending <;> simp [List.map_map, Function.comp_def]

theorem sendMessageCommits_stream_done (apiKey : Option JSString) (st : ChatState)
    (deltas : List JSString)
    (hinput : isBlank st.input = false) (hkey : keyMissing apiKey = false) :
    sendMessageCommits apiKey (.stream deltas .done) st
      = some (([sentState st]
            ++ (List.range (deltas.length + 1)).map
                (fun k => streamingState st (deltas.take k).flatten)).map
              (fun s => { state := s, messagesSet := true })
          ++ [{ state := finishedState st deltas.flatten .done, messagesSet := false }]) := by
  have hstart : (⟨(st.messages ++ [⟨lit "user", st.input⟩]) ++ [⟨lit "assistant", []⟩],
      [], true⟩ : ChatState) = streamingState st [] := by
    simp [streamingState]
  have hlast : (((List.range deltas.length).map
        (fun k => streamingState st ([] ++ (deltas.take (k + 1)).flatten))).getLast?).getD
        (streamingState st []) = streamingState st deltas.flatten := by
    rw [getLast_range_map]
    cases deltas with
    | nil => simp
    | cons d ds => simp
  simp only [sendMessageCommits, hinput, hkey, Bool.false_eq_true, if_false, hstart,
    streamStates_streaming, hlast]
  have hr : (List.range (deltas.length + 1)).map
        (fun k => streamingState st (deltas.take k).flatten)
      = streamingState st [] :: (List.range deltas.length).map
          (fun k => streamingState st ([] ++ (deltas.take (k + 1)).flatten)) := by
    simp [List.range_succ_eq_map, List.map_map, Function.comp_def]
  rw [hr]
  simp [finishedState, sentState]

/-! ## Facts about `split` and the summarisation -/

/-- A string without the separator is its own single segment. -/
theorem jsSplit_of_not_mem (sep : Nat) (s : JSString) (h : sep ∉ s) : jsSplit sep s = [s] := by
  induction s with
  | nil => rfl
  | cons c cs ih =>
    have hc : c ≠ sep := fun e => h (by simp [e])
    have hcs : sep ∉ cs := fun e => h (List.mem_cons_of_mem _ e)
    have hb : (c == sep) = false := by simpa using hc
    rw [jsSplit, hb, ih hcs]
    rfl

/-- The first segment ends at the first separator. -/
theorem jsSplit_append (sep : Nat) (header rest : JSString) (h : sep ∉ header) :
    jsSplit sep (header ++ sep :: rest) = header :: jsSplit sep rest := by
  induction header with
  | nil => simp [jsSplit]
  | cons c cs ih =>
    have hc : c ≠ sep := fun e => h (by simp [e])
    have hcs : sep ∉ cs := fun e => h (List.mem_cons_of_mem _ e)
    have hb : (c == sep) = false := by simpa using hc
    rw [List.cons_append, jsSplit, hb, ih hcs]
    rfl

theorem foldl_append_eq_flatten (deltas : List JSString) (text : JSString) :
    deltas.foldl (fun text chunk => text ++ chunk) text = text ++ deltas.flatten := by
  induction deltas generalizing text with
  | nil => simp
  | cons d ds ih => simp [ih, List.append_assoc]

theorem estimateTokens_le_of_length_le (s t : JSString) (h : s.length ≤ t.length) :
    estimateTokens s ≤ estimateTokens t := by
  rw [estimateTokens_eq, estimateTokens_eq]
  have : (s.length + 3) / 4 ≤ (t.length + 3) / 4 := by omega
  exact_mod_cast this

/-! ## The claims -/

/-- C1. Budget invariant: for a document list with pairwise distinct ids and any
sequence of ids, starting from the empty selection and toggling each id in turn,
the selected total is at most `GEMINI_TOKEN_LIMIT`, which is 200000, after every
step (after the first `k` toggles, for every `k`). -/
theorem budget_invariant_after_toggles (files : List FileRecord) (hd : distinctIds files)
    (ids : List Nat) (k : Nat) :
    calculateSelectedTokens files (toggleAll GEMINI_TOKEN_LIMIT files [] (ids.take k))
        ≤ GEMINI_TOKEN_LIMIT
      ∧ GEMINI_TOKEN_LIMIT = 200000 := by
  refine ⟨?_, rfl⟩
  apply toggleAll_preserves_budget GEMINI_TOKEN_LIMIT files hd
  rw [calculateSelectedTokens_eq_sum_ite]
  simp [GEMINI_TOKEN_LIMIT]

/-- Witness of C1: two documents of 120000 and 100000 tokens, toggled in the
order 1, 2, 1, 2. -/
theorem budget_invariant_after_toggles_witness :
    distinctIds [fileOfLength 1 480000, fileOfLength 2 400000]
      ∧ calculateSelectedTokens [fileOfLength 1 480000, fileOfLength 2 400000]
          (toggleAll GEMINI_TOKEN_LIMIT [fileOfLength 1 480000, fileOfLength 2 400000] []
            ([1, 2, 1, 2].take 4)) ≤ GEMINI_TOKEN_LIMIT :=
  ⟨by decide,
   (budget_invariant_after_toggles [fileOfLength 1 480000, fileOfLength 2 400000]
      (by decide) [1, 2, 1, 2] 4).1⟩

/-- C2. For an id `c` that is not selected: when `find` returns a record for `c`
and the selected total plus that record's cost exceeds the limit, the toggle
returns the selection unchanged; otherwise it returns the selection with `c`
appended and nothing else changed. -/
theorem toggle_absent_rejects_or_adds (limit : Int) (files : List FileRecord)
    (S : List Nat) (c : Nat) (hc : c ∉ S) :
    (∀ file, files.find? (fun f => f.id == c) = some file →
        calculateSelectedTokens files S + estimateTokens file.extracted_info > limit →
        toggleFileSelection limit files S c = S)
      ∧ ((∀ file, files.find? (fun f => f.id == c) = some file →
            ¬ (calculateSelectedTokens files S + estimateTokens file.extracted_info > limit)) →
          toggleFileSelection limit files S c = S ++ [c]) := by
  rw [toggle_of_not_mem limit files S c hc]
  unfold wouldExceedLimit
  constructor
  · intro file hf hgt
    simp [hf, hgt]
  · intro h
    cases hf : files.find? (fun f => f.id == c) with
    | none => simp
    | some file => simp [h file hf]

/-- Witness of C2, the rejection scenario of the specification: with limit 100,
document 1 costing 60 and document 2 costing 50, selecting 1 gives the selection
`[1]` and then selecting 2 (60 + 50 = 110 > 100) leaves it `[1]`. -/
theorem toggle_absent_rejects_or_adds_witness :
    estimateTokens (fileOfLength 1 240).extracted_info = 60
      ∧ estimateTokens (fileOfLength 2 200).extracted_info = 50
      ∧ toggleFileSelection 100 [fileOfLength 1 240, fileOfLength 2 200] [] 1 = [1]
      ∧ toggleFileSelection 100 [fileOfLength 1 240, fileOfLength 2 200] [1] 2 = [1] := by
  refine ⟨by simp [fileOfLength_cost], by simp [fileOfLength_cost], ?_, ?_⟩
  · refine (toggle_absent_rejects_or_adds 100 _ [] 1 (by decide)).2 ?_
    intro file hf
    simp [List.find?_cons, fileOfLength_id] at hf
    subst hf
    simp [calculateSelectedTokens_cons, calculateSelectedTokens_nil, fileOfLength_cost,
      fileOfLength_id]
  · refine (toggle_absent_rejects_or_adds 100 _ [1] 2 (by decide)).1 (fileOfLength 2 200) ?_ ?_
    · simp [List.find?_cons, fileOfLength_id]
    · simp [calculateSelectedTokens_cons, calculateSelectedTokens_nil, fileOfLength_cost,
        fileOfLength_id]

/-- C3. For an id `c` that is selected, the toggle returns the selection with `c`
removed and every other id kept, in the original order and with its original
multiplicity, for every limit, every document list and every total: the limit
is not consulted, also when the updater runs on a state other than the rendered
one. -/
theorem toggle_selected_removes (limit : Int) (files : List FileRecord) (S : List Nat)
    (c : Nat) (hc : c ∈ S) :
    toggleFileSelection limit files S c = S.filter (fun id => id != c)
      ∧ c ∉ toggleFileSelection limit files S c
      ∧ (toggleFileSelection limit files S c).Sublist S
      ∧ (∀ x, x ≠ c → (toggleFileSelection limit files S c).count x = S.count x)
      ∧ (∀ rendered, toggleUpdater limit files rendered c S = S.filter (fun id => id != c)) := by
  have he := toggle_of_mem limit files S c hc
  refine ⟨he, ?_, ?_, ?_, ?_⟩
  · rw [he]; simp [List.mem_filter]
  · rw [he]; exact List.filter_sublist _
  · intro x hx
    rw [he, List.count_filter]
    simpa using hx
  · intro rendered
    simp [toggleUpdater, hc]

/-- Witness of C3: removal from a selection whose total (220001) is above the
limit. -/
theorem toggle_selected_removes_witness :
    (2 : Nat) ∈ [1, 2, 3]
      ∧ toggleFileSelection GEMINI_TOKEN_LIMIT
          [fileOfLength 1 480000, fileOfLength 2 400000, fileOfLength 3 4] [1, 2, 3] 2 = [1, 3] := by
  refine ⟨by decide, ?_⟩
  rw [(toggle_selected_removes GEMINI_TOKEN_LIMIT _ [1, 2, 3] 2 (by decide)).1]
  decide

/-- Counterexample to C4. First part: the one listed document (120000 tokens) is
selected, and `wouldExceedLimit` of its id is `true` (120000 + 120000 > 200000),
not `false`. Second part: two records share the id 1, which is not selected;
the selection with 1 added costs 240000 > 200000, yet `wouldExceedLimit` is
`false` (0 + 120000, the first record only). -/
theorem wouldExceedLimit_selected_counterexample :
    (fileOfLength 1 480000 ∈ [fileOfLength 1 480000] ∧ (1 : Nat) ∈ [1]
        ∧ wouldExceedLimit GEMINI_TOKEN_LIMIT [fileOfLength 1 480000] [1] 1 = true)
      ∧ (fileOfLength 1 480000 ∈ [fileOfLength 1 480000, fileOfLength 1 480000]
        ∧ (1 : Nat) ∉ ([] : List Nat)
        ∧ calculateSelectedTokens [fileOfLength 1 480000, fileOfLength 1 480000] ([] ++ [1])
            > GEMINI_TOKEN_LIMIT
        ∧ wouldExceedLimit GEMINI_TOKEN_LIMIT [fileOfLength 1 480000, fileOfLength 1 480000]
            [] 1 = false) := by
  refine ⟨⟨by simp, by decide, ?_⟩, by simp, by decide, ?_, ?_⟩
  · simp [wouldExceedLimit, List.find?_cons, fileOfLength_id, calculateSelectedTokens_cons,
      calculateSelectedTokens_nil, fileOfLength_cost, GEMINI_TOKEN_LIMIT]
  · simp [fileOfLength_id, calculateSelectedTokens_cons,
      calculateSelectedTokens_nil, fileOfLength_cost, GEMINI_TOKEN_LIMIT]
  · simp [wouldExceedLimit, List.find?_cons, fileOfLength_id, calculateSelectedTokens_cons,
      calculateSelectedTokens_nil, fileOfLength_cost, GEMINI_TOKEN_LIMIT]

/-- C4, amended. For a document list with pairwise distinct ids and the id of a
listed document `d`, `wouldExceedLimit` is true exactly when the selected total
plus the cost of `d` is greater than the limit, whether or not the id is
selected; when the id is not selected, that is exactly when the total of the
selection with the id added is greater than the limit. -/
theorem wouldExceedLimit_iff (limit : Int) (files : List FileRecord) (S : List Nat)
    (d : FileRecord) (hd : distinctIds files) (hmem : d ∈ files) :
    (wouldExceedLimit limit files S d.id = true
        ↔ calculateSelectedTokens files S + estimateTokens d.extracted_info > limit)
      ∧ (d.id ∉ S →
          (wouldExceedLimit limit files S d.id = true
            ↔ calculateSelectedTokens files (S ++ [d.id]) > limit)) := by
  have hf := find_of_mem_distinct files d hd hmem
  have h1 : wouldExceedLimit limit files S d.id = true
      ↔ calculateSelectedTokens files S + estimateTokens d.extracted_info > limit := by
    simp [wouldExceedLimit, hf]
  refine ⟨h1, ?_⟩
  intro hc
  rw [h1, cost_append_new files S d.id hd hc, costOfId_of_find files d.id d hf]

/-- Witness of the amended C4: documents of 120000 and 100000 tokens, the first
selected, the candidate the second. -/
theorem wouldExceedLimit_iff_witness :
    distinctIds [fileOfLength 1 480000, fileOfLength 2 400000]
      ∧ fileOfLength 2 400000 ∈ [fileOfLength 1 480000, fileOfLength 2 400000]
      ∧ (wouldExceedLimit GEMINI_TOKEN_LIMIT [fileOfLength 1 480000, fileOfLength 2 400000]
            [1] (fileOfLength 2 400000).id = true
          ↔ calculateSelectedTokens [fileOfLength 1 480000, fileOfLength 2 400000] [1]
              + estimateTokens (fileOfLength 2 400000).extracted_info > GEMINI_TOKEN_LIMIT) :=
  ⟨by decide, by simp,
   (wouldExceedLimit_iff GEMINI_TOKEN_LIMIT [fileOfLength 1 480000, fileOfLength 2 400000] [1]
      (fileOfLength 2 400000) (by decide) (by simp)).1⟩

/-- Counterexample to C5. First part: documents 1 (120000 tokens) and 2 (100000
tokens) are both selected, a total of 220000. Toggling 2 removes it; toggling 2
again is rejected (120000 + 100000 > 200000), so the selection ends as `[1]`,
which has lost the member 2. Second part: with two documents of 60 and 50
tokens selected as `[1, 2]`, toggling 1 twice ends in `[2, 1]`, the same members
in another order. -/
theorem toggle_twice_counterexample :
    (toggleFileSelection GEMINI_TOKEN_LIMIT [fileOfLength 1 480000, fileOfLength 2 400000]
        (toggleFileSelection GEMINI_TOKEN_LIMIT
          [fileOfLength 1 480000, fileOfLength 2 400000] [1, 2] 2) 2 = [1]
      ∧ ([1] : List Nat) ≠ [1, 2] ∧ (2 : Nat) ∈ [1, 2] ∧ (2 : Nat) ∉ [1])
    ∧ (toggleFileSelection GEMINI_TOKEN_LIMIT [fileOfLength 1 240, fileOfLength 2 200]
        (toggleFileSelection GEMINI_TOKEN_LIMIT
          [fileOfLength 1 240, fileOfLength 2 200] [1, 2] 1) 1 = [2, 1]
      ∧ ([2, 1] : List Nat) ≠ [1, 2]) := by
  refine ⟨⟨?_, by decide, by decide, by decide⟩, ?_, by decide⟩
  · have h1 : toggleFileSelection GEMINI_TOKEN_LIMIT
        [fileOfLength 1 480000, fileOfLength 2 400000] [1, 2] 2 = [1] := by
      rw [toggle_of_mem _ _ _ _ (by decide)]; decide
    rw [h1, toggle_of_not_mem _ _ _ _ (by decide)]
    simp [wouldExceedLimit, List.find?_cons, fileOfLength_id, calculateSelectedTokens_cons,
      calculateSelectedTokens_nil, fileOfLength_cost, GEMINI_TOKEN_LIMIT]
  · have h1 : toggleFileSelection GEMINI_TOKEN_LIMIT
        [fileOfLength 1 240, fileOfLength 2 200] [1, 2] 1 = [2] := by
      rw [toggle_of_mem _ _ _ _ (by decide)]; decide
    rw [h1, toggle_of_not_mem _ _ _ _ (by decide)]
    simp [wouldExceedLimit, List.find?_cons, fileOfLength_id, calculateSelectedTokens_cons,
      calculateSelectedTokens_nil, fileOfLength_cost, GEMINI_TOKEN_LIMIT]

/-- C5, amended. When the selected total is at most the limit, toggling an id
twice returns a selection with the same members: the selection itself when the
id was not selected, and the selection with the id moved to the end when it
was. -/
theorem toggle_twice_within_budget (limit : Int) (files : List FileRecord) (S : List Nat)
    (c : Nat) (h : calculateSelectedTokens files S ≤ limit) :
    (c ∉ S →
        toggleFileSelection limit files (toggleFileSelection limit files S c) c = S)
      ∧ (c ∈ S →
        toggleFileSelection limit files (toggleFileSelection limit files S c) c
          = S.filter (fun id => id != c) ++ [c])
      ∧ (∀ x, x ∈ toggleFileSelection limit files (toggleFileSelection limit files S c) c
          ↔ x ∈ S) := by
  have hout : c ∉ S →
      toggleFileSelection limit files (toggleFileSelection limit files S c) c = S := by
    intro hc
    by_cases hw : wouldExceedLimit limit files S c = true
    · have h1 : toggleFileSelection limit files S c = S := by
        rw [toggle_of_not_mem limit files S c hc, if_pos hw]
      rw [h1, h1]
    · have h1 : toggleFileSelection limit files S c = S ++ [c] := by
        rw [toggle_of_not_mem limit files S c hc, if_neg hw]
      rw [h1, toggle_of_mem limit files (S ++ [c]) c (by simp)]
      rw [List.filter_append]
      have h2 : S.filter (fun id => id != c) = S := by
        rw [List.filter_eq_self]
        intro a ha
        have : a ≠ c := fun e => hc (e ▸ ha)
        simpa using this
      simp [h2]
  have hin : c ∈ S →
      toggleFileSelection limit files (toggleFileSelection limit files S c) c
        = S.filter (fun id => id != c) ++ [c] := by
    intro hc
    have hnot : c ∉ S.filter (fun id => id != c) := by simp [List.mem_filter]
    rw [toggle_of_mem limit files S c hc, toggle_of_not_mem limit files _ c hnot]
    have hle := cost_filter_add_le files S c hc
    have hw : wouldExceedLimit limit files (S.filter (fun id => id != c)) c = false := by
      rw [wouldExceedLimit_eq]
      cases files.find? (fun f => f.id == c) with
      | none => rfl
      | some file =>
        simp only [decide_eq_false_iff_not, not_lt, gt_iff_lt]
        omega
    rw [hw]; rfl
  refine ⟨hout, hin, ?_⟩
  intro x
  by_cases hc : c ∈ S
  · rw [hin hc]
    simp only [List.mem_append, List.mem_filter, List.mem_singleton, bne_iff_ne, ne_eq]
    constructor
    · rintro (⟨hx, _⟩ | rfl)
      · exact hx
      · exact hc
    · intro hx
      by_cases hxc : x = c
      · exact Or.inr hxc
      · exact Or.inl ⟨hx, hxc⟩
  · rw [hout hc]

/-- Witness of the amended C5: toggling the selected id 1 twice in `[1, 2]`. -/
theorem toggle_twice_within_budget_witness :
    calculateSelectedTokens [fileOfLength 1 240, fileOfLength 2 200] [1, 2] ≤ GEMINI_TOKEN_LIMIT
      ∧ toggleFileSelection GEMINI_TOKEN_LIMIT [fileOfLength 1 240, fileOfLength 2 200]
          (toggleFileSelection GEMINI_TOKEN_LIMIT
            [fileOfLength 1 240, fileOfLength 2 200] [1, 2] 1) 1 = [2, 1] := by
  have hb : calculateSelectedTokens [fileOfLength 1 240, fileOfLength 2 200] [1, 2]
      ≤ GEMINI_TOKEN_LIMIT := by
    simp [fileOfLength_id, calculateSelectedTokens_cons, calculateSelectedTokens_nil,
      fileOfLength_cost, GEMINI_TOKEN_LIMIT]
  refine ⟨hb, ?_⟩
  rw [(toggle_twice_within_budget GEMINI_TOKEN_LIMIT _ [1, 2] 1 hb).2.1 (by decide)]
  decide

/-- C6. The token estimate is a non-negative integer, is at least 1 for every
non-empty text, and is non-decreasing in the length of the text. -/
theorem estimateTokens_contract (s t : JSString) (hlen : s.length ≤ t.length) :
    0 ≤ estimateTokens s
      ∧ (s ≠ [] → 1 ≤ estimateTokens s)
      ∧ estimateTokens s ≤ estimateTokens t := by
  refine ⟨estimateTokens_nonneg s, ?_, ?_⟩
  · intro hs
    have hpos : 0 < s.length := List.length_pos.mpr hs
    rw [estimateTokens_eq]
    have : 1 ≤ (s.length + 3) / 4 := by omega
    exact_mod_cast this
  · rw [estimateTokens_eq, estimateTokens_eq]
    have : (s.length + 3) / 4 ≤ (t.length + 3) / 4 := by omega
    exact_mod_cast this

/-- Witness of C6: a text of one code unit and a text of five. -/
theorem estimateTokens_contract_witness :
    (lit "a").length ≤ (lit "hello").length
      ∧ 1 ≤ estimateTokens (lit "a")
      ∧ estimateTokens (lit "a") ≤ estimateTokens (lit "hello") :=
  ⟨by decide,
   (estimateTokens_contract (lit "a") (lit "hello") (by decide)).2.1 (by decide),
   (estimateTokens_contract (lit "a") (lit "hello") (by decide)).2.2⟩

/-- C7. The selected total is the sum, over the positions of the document list,
of the token estimate of the record at that position when its id is selected
and of nothing otherwise: every listed document whose id is selected is counted
exactly once, whatever the order or repetitions in the selection; for the empty
selection the total is 0. -/
theorem calculateSelectedTokens_spec (files : List FileRecord) (S : List Nat) :
    calculateSelectedTokens files S
        = ∑ i : Fin files.length,
            (if (files.get i).id ∈ S then estimateTokens (files.get i).extracted_info else 0)
      ∧ calculateSelectedTokens files S
        = ((files.filter (fun f => decide (f.id ∈ S))).map
            (fun f => estimateTokens f.extracted_info)).sum
      ∧ calculateSelectedTokens files [] = 0 := by
  refine ⟨?_, ?_, ?_⟩
  · rw [calculateSelectedTokens_eq_sum_ite]
    exact (Fin.sum_univ_get' files
      (fun f => if f.id ∈ S then estimateTokens f.extracted_info else 0)).symm
  · rw [calculateSelectedTokens_eq_sum]
    congr 2
    apply List.filter_congr
    intro x _
    simp
  · rw [calculateSelectedTokens_eq_sum_ite]
    simp

/-- Counterexample to C8: two records share the id 1, the first of 1 token and the
second, `d`, of 200001 tokens. `find` returns the first, so toggling the id of
`d` on the empty selection selects it. -/
theorem oversized_document_counterexample :
    fileOfLength 1 800004 ∈ [fileOfLength 1 4, fileOfLength 1 800004]
      ∧ estimateTokens (fileOfLength 1 800004).extracted_info > 200000
      ∧ (fileOfLength 1 800004).id ∉ ([] : List Nat)
      ∧ toggleFileSelection GEMINI_TOKEN_LIMIT [fileOfLength 1 4, fileOfLength 1 800004] []
          (fileOfLength 1 800004).id = [1]
      ∧ ([1] : List Nat) ≠ [] := by
  refine ⟨by simp, by simp [fileOfLength_cost], by simp, ?_, by decide⟩
  rw [fileOfLength_id, toggle_of_not_mem _ _ _ _ (by decide)]
  simp [wouldExceedLimit, List.find?_cons, fileOfLength_id, calculateSelectedTokens_cons,
      calculateSelectedTokens_nil, fileOfLength_cost, GEMINI_TOKEN_LIMIT]

/-- C8, amended. In a document list with pairwise distinct ids, for a listed document
`d` whose own token estimate exceeds 200000: toggling the id of `d` leaves every
selection that does not contain it unchanged, and the id of `d` is in no
selection reached from the empty selection by toggles. -/
theorem oversized_document_never_selected (files : List FileRecord) (d : FileRecord)
    (hd : distinctIds files) (hmem : d ∈ files)
    (hbig : estimateTokens d.extracted_info > 200000) :
    (∀ S, d.id ∉ S → toggleFileSelection GEMINI_TOKEN_LIMIT files S d.id = S)
      ∧ (∀ ids, d.id ∉ toggleAll GEMINI_TOKEN_LIMIT files [] ids) := by
  have hrej : ∀ S, d.id ∉ S → toggleFileSelection GEMINI_TOKEN_LIMIT files S d.id = S := by
    intro S hS
    rw [toggle_of_not_mem _ files S d.id hS]
    have hw : wouldExceedLimit GEMINI_TOKEN_LIMIT files S d.id = true := by
      have hn := calculateSelectedTokens_nonneg files S
      simp only [wouldExceedLimit, find_of_mem_distinct files d hd hmem, GEMINI_TOKEN_LIMIT,
        decide_eq_true_eq, gt_iff_lt]
      omega
    rw [if_pos hw]
  refine ⟨hrej, ?_⟩
  have hgen : ∀ (ids S : List Nat), d.id ∉ S →
      d.id ∉ toggleAll GEMINI_TOKEN_LIMIT files S ids := by
    intro ids
    induction ids with
    | nil => intro S hS; exact hS
    | cons c cs ih =>
      intro S hS
      simp only [toggleAll, List.foldl_cons]
      apply ih
      by_cases hcd : c = d.id
      · rw [hcd, hrej S hS]; exact hS
      · intro hx
        rcases mem_toggle _ _ _ _ _ hx with h | h
        · exact hS h
        · exact hcd h.symm
  intro ids
  exact hgen ids [] (by simp)

/-- Witness of the amended C8: a document of 200001 tokens next to one of 1 token. -/
theorem oversized_document_never_selected_witness :
    distinctIds [fileOfLength 1 4, fileOfLength 2 800004]
      ∧ fileOfLength 2 800004 ∈ [fileOfLength 1 4, fileOfLength 2 800004]
      ∧ estimateTokens (fileOfLength 2 800004).extracted_info > 200000
      ∧ toggleFileSelection GEMINI_TOKEN_LIMIT [fileOfLength 1 4, fileOfLength 2 800004] [1]
          (fileOfLength 2 800004).id = [1] :=
  ⟨by decide, by simp, by simp [fileOfLength_cost],
   (oversized_document_never_selected [fileOfLength 1 4, fileOfLength 2 800004]
      (fileOfLength 2 800004) (by decide) (by simp) (by simp [fileOfLength_cost])).1 [1]
      (by decide)⟩

/-- Counterexample to C9. First part: with documents of 120000 and 100000 tokens and
nothing selected (total 0), `loadChat` of a chat whose stored file ids are 1 and
2 installs a selection of 220000 tokens. Second part: with two records sharing
the id 1, 120000 tokens each, toggling 1 on the empty selection is accepted
(0 + 120000) and selects 240000 tokens. -/
theorem selection_ops_counterexample :
    (withinBudget GEMINI_TOKEN_LIMIT
        { files := [fileOfLength 1 480000, fileOfLength 2 400000], selectedFiles := [],
          messages := [], currentChatId := none }
      ∧ ¬ withinBudget GEMINI_TOKEN_LIMIT
        ((SelectionOp.loadChat 7 (some []) (some [{ file_id := 1 }, { file_id := 2 }])).run
          GEMINI_TOKEN_LIMIT
          { files := [fileOfLength 1 480000, fileOfLength 2 400000], selectedFiles := [],
            messages := [], currentChatId := none }))
      ∧ (withinBudget GEMINI_TOKEN_LIMIT
        { files := [fileOfLength 1 480000, fileOfLength 1 480000], selectedFiles := [],
          messages := [], currentChatId := none }
      ∧ ¬ withinBudget GEMINI_TOKEN_LIMIT
        ((SelectionOp.toggleFileSelection 1).run GEMINI_TOKEN_LIMIT
          { files := [fileOfLength 1 480000, fileOfLength 1 480000], selectedFiles := [],
            messages := [], currentChatId := none })) := by
  refine ⟨⟨?_, ?_⟩, ?_, ?_⟩
  · simp [withinBudget, fileOfLength_id, calculateSelectedTokens_cons,
      calculateSelectedTokens_nil, GEMINI_TOKEN_LIMIT]
  · simp [withinBudget, SelectionOp.run, loadChat, fileOfLength_id, calculateSelectedTokens_cons,
      calculateSelectedTokens_nil, fileOfLength_cost, GEMINI_TOKEN_LIMIT]
  · simp [withinBudget, fileOfLength_id, calculateSelectedTokens_cons,
      calculateSelectedTokens_nil, GEMINI_TOKEN_LIMIT]
  · have h1 : toggleFileSelection GEMINI_TOKEN_LIMIT
        [fileOfLength 1 480000, fileOfLength 1 480000] [] 1 = [1] := by
      rw [toggle_of_not_mem _ _ _ _ (by decide)]
      simp [wouldExceedLimit, List.find?_cons, fileOfLength_id, calculateSelectedTokens_cons,
        calculateSelectedTokens_nil, fileOfLength_cost, GEMINI_TOKEN_LIMIT]
    simp only [withinBudget, SelectionOp.run, h1]
    simp [fileOfLength_id, calculateSelectedTokens_cons,
      calculateSelectedTokens_nil, fileOfLength_cost, GEMINI_TOKEN_LIMIT]

/-- C9, amended. From a state within the limit: `toggleFileSelection` stays within
the limit when the ids of the document list are pairwise distinct; the removal
done by `deleteFile` and `newChat` stay within the limit; a `loadChat` whose two
queries succeed installs the stored file ids without consulting the limit, so
the state after it is within the limit exactly when the stored ids cost at most
the limit; a `loadChat` with a failed query leaves the state unchanged. -/
theorem selection_ops_preserve_budget (limit : Int) (st : State)
    (h : withinBudget limit st) :
    (distinctIds st.files →
        ∀ fileId, withinBudget limit ((SelectionOp.toggleFileSelection fileId).run limit st))
      ∧ (∀ confirmed threw fileId,
          withinBudget limit ((SelectionOp.deleteFile confirmed threw fileId).run limit st))
      ∧ withinBudget limit (SelectionOp.newChat.run limit st)
      ∧ (∀ chatId messagesData filesData,
          (withinBudget limit
              ((SelectionOp.loadChat chatId (some messagesData) (some filesData)).run limit st)
            ↔ calculateSelectedTokens st.files (filesData.map (fun f => f.file_id)) ≤ limit))
      ∧ (∀ chatId messagesResult filesResult, messagesResult = none ∨ filesResult = none →
          (SelectionOp.loadChat chatId messagesResult filesResult).run limit st = st) := by
  unfold withinBudget at h
  refine ⟨?_, ?_, ?_, ?_, ?_⟩
  · intro hd fileId
    exact toggle_preserves_budget limit st.files st.selectedFiles fileId hd h
  · intro confirmed threw fileId
    cases confirmed <;> cases threw <;>
      simp only [SelectionOp.run, deleteFile, withinBudget, Bool.not_true, Bool.not_false,
        if_true, if_false, Bool.false_eq_true] <;>
      first
        | exact h
        | exact le_trans (cost_filter_le st.files st.selectedFiles fileId) h
  · have hn := calculateSelectedTokens_nonneg st.files st.selectedFiles
    have h0 : calculateSelectedTokens st.files [] = 0 := by
      rw [calculateSelectedTokens_eq_sum_ite]; simp
    simp only [SelectionOp.run, newChat, withinBudget, h0]
    omega
  · intro chatId messagesData filesData
    simp [SelectionOp.run, loadChat, withinBudget]
  · intro chatId messagesResult filesResult hnone
    rcases hnone with rfl | rfl
    · simp [SelectionOp.run, loadChat]
    · cases messagesResult <;> simp [SelectionOp.run, loadChat]

/-- Witness of the amended C9: with document 1 (120000 tokens) selected, toggling
document 2 (100000 tokens) leaves the state within the limit. -/
theorem selection_ops_preserve_budget_witness :
    withinBudget GEMINI_TOKEN_LIMIT
        { files := [fileOfLength 1 480000, fileOfLength 2 400000], selectedFiles := [1],
          messages := [], currentChatId := none }
      ∧ withinBudget GEMINI_TOKEN_LIMIT
        ((SelectionOp.toggleFileSelection 2).run GEMINI_TOKEN_LIMIT
          { files := [fileOfLength 1 480000, fileOfLength 2 400000], selectedFiles := [1],
            messages := [], currentChatId := none }) := by
  have hb : withinBudget GEMINI_TOKEN_LIMIT
      { files := [fileOfLength 1 480000, fileOfLength 2 400000], selectedFiles := [1],
        messages := [], currentChatId := none } := by
    simp [withinBudget, fileOfLength_id, calculateSelectedTokens_cons,
      calculateSelectedTokens_nil, fileOfLength_cost, GEMINI_TOKEN_LIMIT]
  exact ⟨hb, (selection_ops_preserve_budget GEMINI_TOKEN_LIMIT _ hb).1 (by decide) 2⟩

/-- C10. For a non-blank input and a present key, `sendMessage` issues one user
content with one text part, the prompt `context ++ "\nUser question: " ++ input`,
where `context` is empty when no listed document is selected and otherwise the
header followed by the block `File: <file_name>\nInformation: <extracted_info>\n\n`
of each selected document in document-list order. Two document lists with the
same selected records give the same prompt, so a document outside the selection
contributes nothing, and the prompt ends with the input. -/
theorem sendMessage_prompt_spec (apiKey : Option JSString) (files : List FileRecord)
    (S : List Nat) (input : JSString)
    (hinput : isBlank input = false) (hkey : keyMissing apiKey = false) :
    sendMessageContents apiKey files S input
        = some [{ role := lit "user",
                  parts := [Part.text
                    (specContext files S ++ lit "\nUser question: " ++ input)] }]
      ∧ sendMessagePrompt files S input
        = specContext files S ++ lit "\nUser question: " ++ input
      ∧ ((∀ f ∈ files, f.id ∉ S) → specContext files S = [])
      ∧ (∀ files2 : List FileRecord,
          files2.filter (fun f => decide (f.id ∈ S))
            = files.filter (fun f => decide (f.id ∈ S)) →
          sendMessagePrompt files2 S input = sendMessagePrompt files S input)
      ∧ input <:+ sendMessagePrompt files S input := by
  have hp : sendMessagePrompt files S input
      = specContext files S ++ lit "\nUser question: " ++ input := by
    rw [sendMessagePrompt, sendMessageContext_eq]
  refine ⟨?_, hp, ?_, ?_, ?_⟩
  · simp [sendMessageContents, hinput, hkey, hp]
  · intro h; unfold specContext; rw [if_pos h]
  · intro files2 h2
    simp only [sendMessagePrompt, sendMessageContext, filter_contains_eq, h2]
  · rw [hp]; exact List.suffix_append _ _

/-- Witness of C10: two documents, the first selected, the question `hi?`. -/
theorem sendMessage_prompt_spec_witness :
    isBlank (lit "hi?") = false ∧ keyMissing (some (lit "k")) = false
      ∧ sendMessageContents (some (lit "k"))
          [{ id := 1, file_name := lit "a.txt", file_type := lit "text/plain", file_size := 5,
             extracted_info := lit "hello" },
           { id := 2, file_name := lit "b.txt", file_type := lit "text/plain", file_size := 6,
             extracted_info := lit "secret" }]
          [1] (lit "hi?")
        = some [{ role := lit "user",
                  parts := [Part.text (lit
                    "Context from uploaded files:\n\nFile: a.txt\nInformation: hello\n\n\nUser question: hi?")] }] := by
  refine ⟨by decide, by decide, ?_⟩
  rw [(sendMessage_prompt_spec (some (lit "k")) _ [1] (lit "hi?") (by decide) (by decide)).1]
  decide

/-- C11. For a non-blank input, a present key and a stream that delivers the deltas
`d1 .. dn`: the send produces its sequence of states, and for every `k` from 0 to
`n` the state after the `k`-th delta has as transcript the prior transcript, the
turn of the user and a single assistant turn whose text is `d1 ++ ... ++ dk`, the
deltas in arrival order; when the stream ends, the final assistant turn is the
concatenation of all deltas. -/
theorem stream_deltas_grow_one_turn (apiKey : Option JSString) (st : ChatState)
    (deltas : List JSString) (ending : StreamEnd)
    (hinput : isBlank st.input = false) (hkey : keyMissing apiKey = false) :
    ∃ states, sendMessageTrace apiKey (.stream deltas ending) st = some states
      ∧ (∀ k, k ≤ deltas.length →
          states[1 + k]? = some
            { messages := st.messages ++ [{ role := lit "user", content := st.input },
                { role := lit "assistant", content := (deltas.take k).flatten }],
              input := [], loading := true })
      ∧ sendMessage apiKey (.stream deltas .done) st = some
          { messages := st.messages ++ [{ role := lit "user", content := st.input },
              { role := lit "assistant", content := deltas.flatten }],
            input := [], loading := false } := by
  refine ⟨_, sendMessageTrace_stream apiKey st deltas ending hinput hkey, ?_, ?_⟩
  · intro k hk
    have hlt : k < ((List.range (deltas.length + 1)).map
        (fun k => streamingState st (deltas.take k).flatten)).length := by
      rw [List.length_map, List.length_range]; omega
    rw [List.append_assoc, List.singleton_append, Nat.add_comm 1 k, List.getElem?_cons_succ,
      List.getElem?_append_left hlt]
    have hk2 : k < deltas.length + 1 := by omega
    simp [streamingState, List.getElem?_range hk2]
  · rw [sendMessage_stream apiKey st deltas .done hinput hkey]
    simp [finishedState, streamingState]

/-- Witness of C11, the streaming scenario of the specification: the deltas `Hel`,
`lo` and ` world` give the assistant texts `Hel`, `Hello` and `Hello world`. -/
theorem stream_deltas_grow_one_turn_witness :
    isBlank (lit "hi") = false ∧ keyMissing (some (lit "k")) = false
      ∧ ∃ states, sendMessageTrace (some (lit "k"))
            (.stream [lit "Hel", lit "lo", lit " world"] .done)
            { messages := [], input := lit "hi", loading := false } = some states
          ∧ states[2]? = some
              { messages := [{ role := lit "user", content := lit "hi" },
                  { role := lit "assistant", content := lit "Hel" }],
                input := [], loading := true }
          ∧ states[3]? = some
              { messages := [{ role := lit "user", content := lit "hi" },
                  { role := lit "assistant", content := lit "Hello" }],
                input := [], loading := true }
          ∧ states[4]? = some
              { messages := [{ role := lit "user", content := lit "hi" },
                  { role := lit "assistant", content := lit "Hello world" }],
                input := [], loading := true }
          ∧ sendMessage (some (lit "k")) (.stream [lit "Hel", lit "lo", lit " world"] .done)
              { messages := [], input := lit "hi", loading := false } = some
              { messages := [{ role := lit "user", content := lit "hi" },
                  { role := lit "assistant", content := lit "Hello world" }],
                input := [], loading := false } := by
  refine ⟨by decide, by decide, ?_⟩
  obtain ⟨states, hs, hk, hfin⟩ := stream_deltas_grow_one_turn (some (lit "k"))
    { messages := [], input := lit "hi", loading := false }
    [lit "Hel", lit "lo", lit " world"] .done (by decide) (by decide)
  refine ⟨states, hs, ?_, ?_, ?_, ?_⟩
  · rw [hk 1 (by decide)]; decide
  · rw [hk 2 (by decide)]; decide
  · rw [hk 3 (by decide)]; decide
  · rw [hfin]; decide

/-- Counterexample to C12: the stream delivers `Hel` and then throws `boom`. The
send ends with two new assistant turns, the partial reply `Hel` and the error
turn, not with exactly one. -/
theorem failed_send_counterexample :
    sendMessage (some (lit "k")) (.stream [lit "Hel"] (.error (lit "boom")))
        { messages := [], input := lit "hi", loading := false }
      = some { messages := [{ role := lit "user", content := lit "hi" },
                  { role := lit "assistant", content := lit "Hel" },
                  { role := lit "assistant", content := lit "Error: boom" }],
               input := [], loading := false } := by
  decide

/-- C12, amended. A send of a non-blank input that fails ends with `loading` false.
When it fails before the stream starts (missing key, or the request rejected),
the transcript is the prior transcript, the turn of the user and exactly one
assistant turn with the text `Error: ` followed by the message. When the error
is raised while the stream is consumed, the transcript is the prior transcript,
the turn of the user, the assistant turn holding the deltas received so far
(empty when none arrived) and then the error turn. -/
theorem failed_send_transcript (apiKey : Option JSString) (st : ChatState)
    (hinput : isBlank st.input = false) :
    (keyMissing apiKey = true → ∀ outcome,
        sendMessage apiKey outcome st = some
          { messages := st.messages ++ [{ role := lit "user", content := st.input },
              { role := lit "assistant",
                content := lit "Error: " ++ lit "Gemini API key not found" }],
            input := [], loading := false })
      ∧ (keyMissing apiKey = false → ∀ message,
        sendMessage apiKey (.rejected message) st = some
          { messages := st.messages ++ [{ role := lit "user", content := st.input },
              { role := lit "assistant", content := lit "Error: " ++ message }],
            input := [], loading := false })
      ∧ (keyMissing apiKey = false → ∀ deltas message,
        sendMessage apiKey (.stream deltas (.error message)) st = some
          { messages := st.messages ++ [{ role := lit "user", content := st.input },
              { role := lit "assistant", content := deltas.flatten },
              { role := lit "assistant", content := lit "Error: " ++ message }],
            input := [], loading := false }) := by
  refine ⟨?_, ?_, ?_⟩
  · intro hkey outcome
    rw [sendMessage, sendMessageTrace_key_missing apiKey outcome st hinput hkey]
    simp [errorTurn]
  · intro hkey message
    rw [sendMessage, sendMessageTrace_rejected apiKey message st hinput hkey]
    simp [errorTurn]
  · intro hkey deltas message
    rw [sendMessage_stream apiKey st deltas (.error message) hinput hkey]
    simp [finishedState, streamingState, errorTurn]

/-- Witness of the amended C12: a request rejected with the message `boom`. -/
theorem failed_send_transcript_witness :
    isBlank (lit "hi") = false
      ∧ sendMessage (some (lit "k")) (.rejected (lit "boom"))
          { messages := [], input := lit "hi", loading := false }
        = some { messages := [{ role := lit "user", content := lit "hi" },
                  { role := lit "assistant", content := lit "Error: " ++ lit "boom" }],
                 input := [], loading := false } :=
  ⟨by decide,
   (failed_send_transcript (some (lit "k"))
      { messages := [], input := lit "hi", loading := false } (by decide)).2.1
      (by decide) (lit "boom")⟩

/-- C13. For every state, key and outcome, the send produces its sequence of states;
the transcript before the send is an initial segment of the transcript of every
one of them and of the final one; and between two consecutive states either
turns are appended at the end, or the text of the last turn is replaced, that
turn being an assistant turn which is not one of the turns present before the
send. -/
theorem transcript_append_only (apiKey : Option JSString) (outcome : LlmOutcome)
    (st : ChatState) :
    ∃ states, sendMessageTrace apiKey outcome st = some states
      ∧ (∀ s ∈ states, st.messages <+: s.messages)
      ∧ List.Chain' (transcriptStep st.messages) (st :: states)
      ∧ ∃ fin, sendMessage apiKey outcome st = some fin ∧ st.messages <+: fin.messages := by
  by_cases hinput : isBlank st.input = true
  · refine ⟨[], by simp [sendMessageTrace, hinput], by simp, by simp, st, ?_, ⟨[], by simp⟩⟩
    simp [sendMessage, sendMessageTrace, hinput]
  · have hin : isBlank st.input = false := by simpa using hinput
    by_cases hkey : keyMissing apiKey = true
    · refine ⟨_, sendMessageTrace_key_missing apiKey outcome st hin hkey, ?_, ?_, _,
        sendMessage_key_missing apiKey outcome st hin hkey, ?_⟩
      · intro s hs
        rw [List.mem_singleton] at hs
        subst hs
        exact ⟨_, rfl⟩
      · simp only [List.chain'_cons, List.chain'_singleton, and_true]
        exact Or.inl ⟨_, rfl⟩
      · exact ⟨_, rfl⟩
    · have hk : keyMissing apiKey = false := by simpa using hkey
      cases outcome with
      | rejected message =>
        refine ⟨_, sendMessageTrace_rejected apiKey message st hin hk, ?_, ?_, _,
          sendMessage_rejected apiKey message st hin hk, ?_⟩
        · intro s hs
          simp only [List.mem_cons, List.mem_singleton, List.not_mem_nil, or_false] at hs
          rcases hs with rfl | rfl
          · exact ⟨_, rfl⟩
          · exact ⟨_, rfl⟩
        · simp only [List.chain'_cons, List.chain'_singleton, and_true]
          refine ⟨Or.inl ⟨_, rfl⟩, Or.inl ⟨[errorTurn message], ?_⟩⟩
          simp [sentState]
        · exact ⟨_, rfl⟩
      | stream deltas ending =>
        have hfinm : ∃ extra, (finishedState st deltas.flatten ending).messages
            = (streamingState st deltas.flatten).messages ++ extra := by
          cases ending with
          | done => exact ⟨[], by simp [finishedState]⟩
          | error message => exact ⟨[errorTurn message], by simp [finishedState]⟩
        obtain ⟨extra, hextra⟩ := hfinm
        refine ⟨_, sendMessageTrace_stream apiKey st deltas ending hin hk, ?_, ?_, _,
          sendMessage_stream apiKey st deltas ending hin hk, ?_⟩
        · intro s hs
          simp only [List.mem_append, List.mem_singleton, List.mem_map, List.mem_range] at hs
          rcases hs with (rfl | ⟨k, _, rfl⟩) | rfl
          · exact ⟨_, rfl⟩
          · exact ⟨_, rfl⟩
          · rw [hextra, streamingState_messages, List.append_assoc, List.append_assoc]
            exact ⟨_, rfl⟩
        · rw [List.range_succ_eq_map, List.map_cons, List.map_map, List.append_assoc,
            List.singleton_append, List.cons_append, List.chain'_cons, List.chain'_cons]
          refine ⟨Or.inl ⟨_, rfl⟩, Or.inl ⟨[{ role := lit "assistant", content := [] }], ?_⟩, ?_⟩
          · simp [sentState, streamingState]
          · have h := chain_map_range (transcriptStep st.messages)
              (fun k => streamingState st (deltas.take k).flatten)
              (finishedState st deltas.flatten ending) deltas.length ?_ ?_
            · simpa [Function.comp_def] using h
            · intro k
              refine Or.inr ⟨st.messages ++ [{ role := lit "user", content := st.input }],
                (deltas.take k).flatten, (deltas.take (k + 1)).flatten, ?_, ?_, ?_⟩
              · simp
              · exact streamingState_messages st _
              · exact streamingState_messages st _
            · refine Or.inl ⟨extra, ?_⟩
              simp [hextra]
        · rw [hextra, streamingState_messages, List.append_assoc, List.append_assoc]
          exact ⟨_, rfl⟩

/-- Counterexample to C14: `saveCurrentChat` is called for chat 7 with the transcript
`hi` while another save is in progress (`savingChat` is true). It returns at the
guard of line 89: the backend is untouched and chat 7 still holds its former
row `old`, not the transcript. -/
theorem save_while_saving_counterexample :
    saveCurrentChat { userId := lit "u", now := lit "t2", newChatId := 8 } true
        [{ role := lit "user", content := lit "hi" }] [] (some 7)
        { chats := [{ id := 7, user_id := lit "u", title := lit "old", updated_at := lit "t1" }],
          chat_files := [],
          chat_messages := [{ chat_id := 7, role := lit "user", content := lit "old" }] }
      = ({ chats := [{ id := 7, user_id := lit "u", title := lit "old",
                       updated_at := lit "t1" }],
           chat_files := [],
           chat_messages := [{ chat_id := 7, role := lit "user", content := lit "old" }] },
         some 7)
      ∧ storedTranscript
          { chats := [{ id := 7, user_id := lit "u", title := lit "old", updated_at := lit "t1" }],
            chat_files := [],
            chat_messages := [{ chat_id := 7, role := lit "user", content := lit "old" }] } 7
        = [{ role := lit "user", content := lit "old" }]
      ∧ ([{ role := lit "user", content := lit "old" }] : List Message)
        ≠ [{ role := lit "user", content := lit "hi" }] := by
  refine ⟨by decide, by decide, by decide⟩

/-- C14, amended. With the backend as tables of rows: for every prior content of the
tables and every non-empty transcript, a `saveCurrentChat` that runs while no
other save is in progress (`savingChat` false) and meets no backend error leaves
the chat it works on with exactly the `(role, content)` pairs of the transcript,
in order, and leaves the rows of every other chat as they were; a second such
save of another non-empty transcript for the same chat leaves only the second
transcript stored for it. A `saveCurrentChat` called while `savingChat` is true
changes nothing. -/
theorem save_replaces_stored_transcript (env : SaveEnv) (messages : List Message)
    (selectedFiles : List Nat) (currentChatId : Option Nat) (db : Backend)
    (hne : messages ≠ []) :
    (saveCurrentChat env false messages selectedFiles currentChatId db).2
        = some (savedChatId env currentChatId)
      ∧ storedTranscript (saveCurrentChat env false messages selectedFiles currentChatId db).1
          (savedChatId env currentChatId) = messages
      ∧ (∀ other, other ≠ savedChatId env currentChatId →
          storedTranscript (saveCurrentChat env false messages selectedFiles currentChatId db).1
            other = storedTranscript db other)
      ∧ (∀ (env2 : SaveEnv) (messages2 : List Message) (selectedFiles2 : List Nat),
          messages2 ≠ [] →
          savedChatId env2 (some (savedChatId env currentChatId))
            = savedChatId env currentChatId →
          storedTranscript
            (saveCurrentChat env2 false messages2 selectedFiles2
              (saveCurrentChat env false messages selectedFiles currentChatId db).2
              (saveCurrentChat env false messages selectedFiles currentChatId db).1).1
            (savedChatId env currentChatId) = messages2)
      ∧ saveCurrentChat env true messages selectedFiles currentChatId db
        = (db, currentChatId) := by
  refine ⟨saveCurrentChat_chatId env messages selectedFiles currentChatId db hne, ?_, ?_, ?_, ?_⟩
  · rw [storedTranscript_after_save env messages selectedFiles currentChatId db hne, if_pos rfl]
  · intro other hother
    rw [storedTranscript_after_save env messages selectedFiles currentChatId db hne,
      if_neg hother]
  · intro env2 messages2 selectedFiles2 hne2 hsame
    rw [saveCurrentChat_chatId env messages selectedFiles currentChatId db hne,
      storedTranscript_after_save env2 messages2 selectedFiles2 _ _ hne2, if_pos hsame.symm]
  · simp [saveCurrentChat]

/-- Witness of the amended C14: chat 7 holds the row `old` and chat 3 the row
`other`; saving the transcript `hi`, `Hello` for chat 7 leaves exactly that
transcript stored for chat 7. -/
theorem save_replaces_stored_transcript_witness :
    ([{ role := lit "user", content := lit "hi" },
        { role := lit "assistant", content := lit "Hello" }] : List Message) ≠ []
      ∧ storedTranscript
          (saveCurrentChat { userId := lit "u", now := lit "t2", newChatId := 8 } false
            [{ role := lit "user", content := lit "hi" },
              { role := lit "assistant", content := lit "Hello" }] [] (some 7)
            { chats := [{ id := 7, user_id := lit "u", title := lit "old", updated_at := lit "t1" }],
              chat_files := [],
              chat_messages := [{ chat_id := 7, role := lit "user", content := lit "old" },
                { chat_id := 3, role := lit "user", content := lit "other" }] }).1
          (savedChatId { userId := lit "u", now := lit "t2", newChatId := 8 } (some 7))
        = [{ role := lit "user", content := lit "hi" },
            { role := lit "assistant", content := lit "Hello" }] :=
  ⟨by decide,
   (save_replaces_stored_transcript { userId := lit "u", now := lit "t2", newChatId := 8 }
      [{ role := lit "user", content := lit "hi" },
        { role := lit "assistant", content := lit "Hello" }] [] (some 7)
      { chats := [{ id := 7, user_id := lit "u", title := lit "old", updated_at := lit "t1" }],
        chat_files := [],
        chat_messages := [{ chat_id := 7, role := lit "user", content := lit "old" },
          { chat_id := 3, role := lit "user", content := lit "other" }] }
      (by decide)).2.1⟩

/-- C15, the behaviour of the code. For a non-blank input, a present key and a stream
that ends without error, when each run of setter calls between two `await`s is
rendered on its own: the renders of the send exist, the auto-save effect calls
`saveCurrentChat` after none of them, and the last render shows the full final
transcript with `loading` false. The effect would be called on that transcript
only if the completion were applied in one batch with an earlier update of
`messages`. -/
theorem completed_send_triggers_no_save (apiKey : Option JSString) (st : ChatState)
    (deltas : List JSString)
    (hinput : isBlank st.input = false) (hkey : keyMissing apiKey = false) :
    ∃ commits, sendMessageCommits apiKey (.stream deltas .done) st = some commits
      ∧ (∀ c ∈ commits, autoSaveEffect c = none)
      ∧ (commits.getLast?).map (fun c => c.state) = some
          { messages := st.messages ++ [{ role := lit "user", content := st.input },
              { role := lit "assistant", content := deltas.flatten }],
            input := [], loading := false }
      ∧ (∀ c d : Commit, commits.getLast? = some d → c.messagesSet = true →
          autoSaveEffect (c.batch d) = some
            (st.messages ++ [{ role := lit "user", content := st.input },
              { role := lit "assistant", content := deltas.flatten }])) := by
  refine ⟨_, sendMessageCommits_stream_done apiKey st deltas hinput hkey, ?_, ?_, ?_⟩
  · intro c hc
    simp only [List.mem_append, List.mem_map, List.mem_singleton, List.mem_range] at hc
    rcases hc with ⟨s, (rfl | ⟨k, _, rfl⟩), rfl⟩ | rfl
    · simp [autoSaveEffect, sentState]
    · simp [autoSaveEffect, streamingState]
    · simp [autoSaveEffect]
  · rw [List.getLast?_concat]
    simp [finishedState, streamingState]
  · intro c d hd hc
    rw [List.getLast?_concat] at hd
    cases hd
    simp [autoSaveEffect, Commit.batch, hc, finishedState, streamingState]

/-- Witness of C15, the failing run: the input `hi`, a stream that delivers `Hello`
and ends. The four renders trigger no save, and the last one shows the final
transcript with `loading` false. -/
theorem completed_send_triggers_no_save_witness :
    isBlank (lit "hi") = false ∧ keyMissing (some (lit "k")) = false
      ∧ ∃ commits, sendMessageCommits (some (lit "k")) (.stream [lit "Hello"] .done)
            { messages := [], input := lit "hi", loading := false } = some commits
          ∧ commits.map autoSaveEffect = [none, none, none, none]
          ∧ (commits.getLast?).map (fun c => c.state) = some
              { messages := [{ role := lit "user", content := lit "hi" },
                  { role := lit "assistant", content := lit "Hello" }],
                input := [], loading := false } := by
  refine ⟨by decide, by decide, ?_⟩
  obtain ⟨commits, hc, _, _, _⟩ := completed_send_triggers_no_save (some (lit "k"))
    { messages := [], input := lit "hi", loading := false } [lit "Hello"] (by decide) (by decide)
  have hv : sendMessageCommits (some (lit "k")) (.stream [lit "Hello"] .done)
      { messages := [], input := lit "hi", loading := false } = some
      [⟨⟨[⟨lit "user", lit "hi"⟩], [], true⟩, true⟩,
       ⟨⟨[⟨lit "user", lit "hi"⟩, ⟨lit "assistant", []⟩], [], true⟩, true⟩,
       ⟨⟨[⟨lit "user", lit "hi"⟩, ⟨lit "assistant", lit "Hello"⟩], [], true⟩, true⟩,
       ⟨⟨[⟨lit "user", lit "hi"⟩, ⟨lit "assistant", lit "Hello"⟩], [], false⟩, false⟩] := by
    decide
  rw [hv] at hc
  cases hc
  exact ⟨_, hv, by decide, by decide⟩

/-- Counterexample to C16: a new chat is created from a transcript whose first turn
has the empty text. The title stored is `New Chat`, which is not an initial
segment of that text. -/
theorem new_chat_title_counterexample :
    (saveCurrentChat { userId := lit "u", now := lit "t", newChatId := 1 } false
        [{ role := lit "user", content := [] }] [] none
        { chats := [], chat_files := [], chat_messages := [] }).1.chats
      = [{ id := 1, user_id := lit "u", title := lit "New Chat", updated_at := lit "t" }]
      ∧ ¬ (lit "New Chat" <+: ([] : JSString)) := by
  constructor
  · decide
  · rintro ⟨t, ht⟩
    have := congrArg List.length ht
    simp [lit] at this

/-- C16, amended. When `saveCurrentChat` creates a new chat from a non-empty
transcript, it appends one row to `chats`, with the id given by the backend and
a title taken from the first turn: `New Chat` when the text of that turn is
empty, and otherwise the first 50 code units of the text, which is an initial
segment of the text of length at most 50 and the whole text when the text has
at most 50 code units. -/
theorem new_chat_title (env : SaveEnv) (first : Message) (rest : List Message)
    (selectedFiles : List Nat) (currentChatId : Option Nat) (db : Backend)
    (hnew : chatIdMissing currentChatId = true) :
    (∃ row, (saveCurrentChat env false (first :: rest) selectedFiles currentChatId db).1.chats
          = db.chats ++ [row]
        ∧ row.id = env.newChatId
        ∧ row.title = newChatTitle (first :: rest))
      ∧ newChatTitle (first :: rest)
          = (if first.content = [] then lit "New Chat" else first.content.take 50)
      ∧ (first.content ≠ [] →
          newChatTitle (first :: rest) <+: first.content
            ∧ (newChatTitle (first :: rest)).length ≤ 50
            ∧ (first.content.length ≤ 50 → newChatTitle (first :: rest) = first.content)) := by
  have htitle : newChatTitle (first :: rest)
      = (if first.content = [] then lit "New Chat" else first.content.take 50) := by
    unfold newChatTitle
    by_cases h : first.content = []
    · simp [h]
    · have h50 : first.content.take 50 ≠ [] := by
        cases hc : first.content with
        | nil => exact absurd hc h
        | cons a as => simp
      simp [h, h50]
  refine ⟨?_, htitle, ?_⟩
  · refine ⟨⟨env.newChatId, env.userId, newChatTitle (first :: rest), env.now⟩, ?_, rfl, rfl⟩
    unfold saveCurrentChat
    simp only [List.length_cons, Bool.false_or, hnew, savedChatId, if_true]
    split_ifs <;> simp_all
  · intro hne
    rw [htitle, if_neg hne]
    refine ⟨⟨first.content.drop 50, List.take_append_drop 50 first.content⟩, ?_, ?_⟩
    · rw [List.length_take]; omega
    · intro hlen
      exact List.take_of_length_le hlen

/-- Witness of the amended C16: a first turn of 22 code units is its own title. -/
theorem new_chat_title_witness :
    chatIdMissing none = true
      ∧ newChatTitle [{ role := lit "user", content := lit "What is in the report?" }]
        = lit "What is in the report?" := by
  refine ⟨by decide, ?_⟩
  rw [(new_chat_title { userId := lit "u", now := lit "t", newChatId := 1 }
    { role := lit "user", content := lit "What is in the report?" } [] [] none
    { chats := [], chat_files := [], chat_messages := [] } (by decide)).2.1]
  decide

/-- C17. For a non-blank input and an absent key (undefined or empty), whatever the
client would answer: the send produces a final state, with `loading` false and
the transcript made of the prior transcript, the turn of the user and one
assistant turn with the text `Error: Gemini API key not found`; and no request
is built for the client. -/
theorem missing_key_send (apiKey : Option JSString) (outcome : LlmOutcome) (st : ChatState)
    (hinput : isBlank st.input = false) (hkey : keyMissing apiKey = true) :
    sendMessage apiKey outcome st = some
        { messages := st.messages ++ [{ role := lit "user", content := st.input },
            { role := lit "assistant", content := lit "Error: Gemini API key not found" }],
          input := [], loading := false }
      ∧ (∀ files selectedFiles, sendMessageContents apiKey files selectedFiles st.input = none) := by
  constructor
  · rw [sendMessage, sendMessageTrace_key_missing apiKey outcome st hinput hkey]
    have hl : lit "Error: " ++ lit "Gemini API key not found"
        = lit "Error: Gemini API key not found" := by decide
    simp [errorTurn, hl]
  · intro files selectedFiles
    simp [sendMessageContents, hinput, hkey]

/-- Witness of C17: the key is undefined and the transcript holds one earlier turn. -/
theorem missing_key_send_witness :
    isBlank (lit "hi") = false ∧ keyMissing none = true
      ∧ sendMessage none (.stream [lit "never"] .done)
          { messages := [{ role := lit "user", content := lit "a" }], input := lit "hi",
            loading := false }
        = some { messages := [{ role := lit "user", content := lit "a" },
                  { role := lit "user", content := lit "hi" },
                  { role := lit "assistant", content := lit "Error: Gemini API key not found" }],
                 input := [], loading := false } :=
  ⟨by decide, by decide,
   (missing_key_send none (.stream [lit "never"] .done)
      { messages := [{ role := lit "user", content := lit "a" }], input := lit "hi",
        loading := false } (by decide) (by decide)).1⟩

/-- C18. For every ingested file, with a present key: `base64` is the `result` of
`FileReader.readAsDataURL`, a header and a payload separated by the one comma of
the string. `analyzeWithLLM` then builds one user content. For type `image` or
`pdf` its parts are, in this order, the text prompt of the type and an inline
part with the MIME type of the file and the payload, the portion of the data
URL after its first comma. For a document its only part is a text part, the
summary instruction followed by the first 10000 code units of the text. The
same holds of the object that `extractTextFromFile` builds from the file. -/
theorem analyze_request_parts (apiKey : Option JSString) (header payload : JSString)
    (hkey : keyMissing apiKey = false)
    (hheader : comma ∉ header) (hpayload : comma ∉ payload) :
    (∀ isImage mimeType name,
        analyzeRequest apiKey (.binary isImage (header ++ comma :: payload) mimeType name)
          = some [{ role := lit "user",
                    parts := [Part.text (if isImage then imagePrompt else pdfPrompt),
                      Part.inlineData mimeType (some payload)] }])
      ∧ (∀ content name,
          analyzeRequest apiKey (.document content name)
            = some [{ role := lit "user",
                      parts := [Part.text (summaryInstruction ++ content.take 10000)] }])
      ∧ (∀ file : UploadedFile, file.dataURL = header ++ comma :: payload →
          analyzeRequest apiKey (extractTextFromFile file)
            = if startsWith file.type (lit "image/") || file.type == lit "application/pdf" then
                some [{ role := lit "user",
                        parts := [Part.text
                            (if startsWith file.type (lit "image/") then imagePrompt
                              else pdfPrompt),
                          Part.inlineData file.type (some payload)] }]
              else
                some [{ role := lit "user",
                        parts := [Part.text (summaryInstruction ++ file.text.take 10000)] }]) := by
  have hsplit : (jsSplit comma (header ++ comma :: payload))[1]? = some payload := by
    rw [jsSplit_append comma header payload hheader, jsSplit_of_not_mem comma payload hpayload]
    rfl
  have hbin : ∀ isImage mimeType name,
      analyzeRequest apiKey (.binary isImage (header ++ comma :: payload) mimeType name)
        = some [{ role := lit "user",
                  parts := [Part.text (if isImage then imagePrompt else pdfPrompt),
                    Part.inlineData mimeType (some payload)] }] := by
    intro isImage mimeType name
    simp [analyzeRequest, hkey, analyzeContents, hsplit]
  have hdoc : ∀ content name,
      analyzeRequest apiKey (.document content name)
        = some [{ role := lit "user",
                  parts := [Part.text (summaryInstruction ++ content.take 10000)] }] := by
    intro content name
    simp [analyzeRequest, hkey, analyzeContents]
  refine ⟨hbin, hdoc, ?_⟩
  intro file hurl
  unfold extractTextFromFile
  by_cases hty : (startsWith file.type (lit "image/") || file.type == lit "application/pdf") = true
  · rw [if_pos hty, if_pos hty, convertToBase64, hurl, hbin]
  · rw [if_neg hty, if_neg hty, hdoc]

/-- Witness of C18: a PNG file with the data URL `data:image/png;base64,iVBORw0KGgo=`. -/
theorem analyze_request_parts_witness :
    keyMissing (some (lit "k")) = false
      ∧ comma ∉ lit "data:image/png;base64" ∧ comma ∉ lit "iVBORw0KGgo="
      ∧ lit "data:image/png;base64,iVBORw0KGgo="
          = lit "data:image/png;base64" ++ comma :: lit "iVBORw0KGgo="
      ∧ analyzeRequest (some (lit "k"))
          (extractTextFromFile
            { name := lit "a.png", type := lit "image/png",
              dataURL := lit "data:image/png;base64,iVBORw0KGgo=", text := [] })
        = some [{ role := lit "user",
                  parts := [Part.text imagePrompt,
                    Part.inlineData (lit "image/png") (some (lit "iVBORw0KGgo="))] }] := by
  refine ⟨by decide, by decide, by decide, by decide, ?_⟩
  have hty : (startsWith (lit "image/png") (lit "image/")
      || lit "image/png" == lit "application/pdf") = true := by decide
  have himg : startsWith (lit "image/png") (lit "image/") = true := by decide
  rw [(analyze_request_parts (some (lit "k")) (lit "data:image/png;base64")
    (lit "iVBORw0KGgo=") (by decide) (by decide) (by decide)).2.2
    { name := lit "a.png", type := lit "image/png",
      dataURL := lit "data:image/png;base64,iVBORw0KGgo=", text := [] } (by decide)]
  rw [if_pos hty, if_pos himg]

/-- C19. For every text, `estimateTokens` is the least integer `n` with
`4 * n >= length`, which is the ceiling of `length / 4`, and the definition of
`Dashboard.jsx` returns the same value as the one of `ChatInterface.jsx`. -/
theorem estimateTokens_is_ceiling (text : JSString) :
    IsLeast { n : Int | 4 * n ≥ (text.length : Int) } (estimateTokens text)
      ∧ estimateTokens text = Int.ceil ((text.length : ℚ) / 4)
      ∧ Dashboard.estimateTokens text = estimateTokens text := by
  refine ⟨⟨?_, ?_⟩, rfl, rfl⟩
  · show 4 * estimateTokens text ≥ (text.length : Int)
    rw [estimateTokens_eq]
    have : text.length ≤ 4 * ((text.length + 3) / 4) := by omega
    exact_mod_cast this
  · intro n hn
    have hn2 : (text.length : Int) ≤ 4 * n := hn
    rw [estimateTokens_eq]
    have h1 : 4 * (((text.length + 3) / 4 : Nat) : Int) < (text.length : Int) + 4 := by
      have : 4 * ((text.length + 3) / 4) < text.length + 4 := by omega
      exact_mod_cast this
    omega

/-- C20. For a text document with content `C`, a present key and a stream that
delivers the summary `s` in pieces and ends: `analyzeWithLLM` (of either
component) returns `SUMMARY:\n` ++ `s` ++ `\n\n---\n\nFULL CONTENT:\n` ++ `C`. The
returned text ends with the whole of `C`, whatever its length, although the
request shows the model only the first 10000 code units; so its token estimate
is at least that of `C`. -/
theorem analyze_document_keeps_content (apiKey : Option JSString) (content name : JSString)
    (deltas : List JSString) (hkey : keyMissing apiKey = false) :
    analyzeWithLLM apiKey (.document content name) (.stream deltas .done)
        = .ok (lit "SUMMARY:\n" ++ deltas.flatten ++ lit "\n\n---\n\nFULL CONTENT:\n" ++ content)
      ∧ FileUpload.analyzeWithLLM apiKey (.document content name) (.stream deltas .done)
        = analyzeWithLLM apiKey (.document content name) (.stream deltas .done)
      ∧ content <:+
          (lit "SUMMARY:\n" ++ deltas.flatten ++ lit "\n\n---\n\nFULL CONTENT:\n" ++ content)
      ∧ estimateTokens content ≤ estimateTokens
          (lit "SUMMARY:\n" ++ deltas.flatten ++ lit "\n\n---\n\nFULL CONTENT:\n" ++ content)
      ∧ analyzeRequest apiKey (.document content name)
        = some [{ role := lit "user",
                  parts := [Part.text (summaryInstruction ++ content.take 10000)] }] := by
  have h1 : analyzeWithLLM apiKey (.document content name) (.stream deltas .done)
      = .ok (lit "SUMMARY:\n" ++ deltas.flatten ++ lit "\n\n---\n\nFULL CONTENT:\n"
          ++ content) := by
    simp [analyzeWithLLM, analyzeWithLLMWith, hkey, foldl_append_eq_flatten]
  refine ⟨h1, ?_, List.suffix_append _ _, ?_, ?_⟩
  · simp [FileUpload.analyzeWithLLM, analyzeWithLLM, analyzeWithLLMWith, hkey]
  · apply estimateTokens_le_of_length_le
    simp only [List.length_append]
    omega
  · simp [analyzeRequest, hkey, analyzeContents]

/-- Witness of C20: a document of 20000 code units, twice the length of the preview. -/
theorem analyze_document_keeps_content_witness :
    keyMissing (some (lit "k")) = false
      ∧ analyzeWithLLM (some (lit "k")) (.document (textOfLength 20000) (lit "a.txt"))
          (.stream [lit "A long", lit " text."] .done)
        = .ok (lit "SUMMARY:\n" ++ [lit "A long", lit " text."].flatten
            ++ lit "\n\n---\n\nFULL CONTENT:\n" ++ textOfLength 20000) :=
  ⟨by decide,
   (analyze_document_keeps_content (some (lit "k")) (textOfLength 20000) (lit "a.txt")
      [lit "A long", lit " text."] (by decide)).1⟩

/-- C21. For every document list, selection and record (listed or not), the flag
`canSelect` of the record is false exactly when its id is not selected and
toggling the id returns the selection unchanged, and it is true exactly when
toggling the id changes the selection. -/
theorem canSelect_iff_toggle_changes (limit : Int) (files : List FileRecord) (S : List Nat)
    (f : FileRecord) :
    (canSelect limit files S f = false
        ↔ f.id ∉ S ∧ toggleFileSelection limit files S f.id = S)
      ∧ (canSelect limit files S f = true ↔ toggleFileSelection limit files S f.id ≠ S) := by
  by_cases hc : f.id ∈ S
  · have hne := toggle_ne_of_mem limit files S f.id hc
    have hcan : canSelect limit files S f = true := by simp [canSelect, hc]
    constructor
    · simp [hcan, hc]
    · simp [hcan, hne]
  · rw [toggle_of_not_mem limit files S f.id hc]
    by_cases hw : wouldExceedLimit limit files S f.id = true
    · have hcan : canSelect limit files S f = false := by simp [canSelect, hc, hw]
      simp [hcan, hc, hw]
    · have hwf : wouldExceedLimit limit files S f.id = false := by simpa using hw
      have hcan : canSelect limit files S f = true := by simp [canSelect, hc, hwf]
      simp [hcan, hwf, append_singleton_ne]

/-- An evaluation of the flag: with document 1 (120000 tokens) selected, document 2
(100000 tokens) is not offered, and toggling it leaves the selection as it is. -/
theorem canSelect_rejected_example :
    canSelect GEMINI_TOKEN_LIMIT [fileOfLength 1 480000, fileOfLength 2 400000] [1]
      (fileOfLength 2 400000) = false
      ∧ toggleFileSelection GEMINI_TOKEN_LIMIT
          [fileOfLength 1 480000, fileOfLength 2 400000] [1] 2 = [1] := by
  have hw : wouldExceedLimit GEMINI_TOKEN_LIMIT
      [fileOfLength 1 480000, fileOfLength 2 400000] [1] 2 = true := by
    simp [wouldExceedLimit, List.find?_cons, fileOfLength_id,
      calculateSelectedTokens_cons, calculateSelectedTokens_nil, fileOfLength_cost,
      GEMINI_TOKEN_LIMIT]
  refine ⟨?_, ?_⟩
  · simp [canSelect, fileOfLength_id, hw]
  · rw [toggle_of_not_mem _ _ _ _ (by decide), hw]; rfl

end DocChat
